import Mathlib

/-!
Shallow embedding of the tinygrad kernel optimizer (`tinygrad/codegen/kernel.py`)
and proofs about its opt-application API.

The embedding follows the source file closely: `Kernel` mirrors the mutable
state of the Python `Kernel` class, `Kernel.apply_opt` mirrors `apply_opt`
(Python in-place mutation plus exceptions becomes an `Except` value whose
error also carries the state at the moment the exception was raised, exactly
as the surviving Python object would), and the simplifiers `simplify_ones`
and `simplify_merge_adjacent` are translated line by line.

Collaborator code that is not part of the repository snapshot (ShapeTracker,
the renderer descriptors, `can_pad`, `get_contraction`, `strides_for_shape`,
the helpers `prod`, `round_up`, `dedup`, `all_same`) is modelled from the
specification; each such definition carries a doc comment saying so.
-/

namespace TG

/-- Symbolic-or-concrete integer: tinygrad's `sint = int | UOp`.  A `sym`
value stands for an unresolved symbolic `UOp`; arithmetic on it is
modelled from the spec (symbolic shapes only flow through the paths the
optimizer guards with `isinstance(_, int)` / `resolve`). -/
inductive SInt where
  | i (n : Int)
  | sym (v : Nat)
deriving DecidableEq, Repr

/-- Rendering used to build error message strings (mirrors Python str()). -/
def SInt.str : SInt → String
  | .i n => toString n
  | .sym v => "sym" ++ toString v

instance : ToString SInt := ⟨SInt.str⟩

/-- Python `isinstance(s, int)` for an `sint`. -/
def SInt.isInt : SInt → Bool
  | .i _ => true
  | .sym _ => false

/-- Extract the concrete value; 0 for symbolic (only used on paths the
source has already guarded with `isinstance(_, int)`). -/
def SInt.toInt : SInt → Int
  | .i n => n
  | .sym _ => 0

/-- Multiplication on `sint`; a symbolic factor keeps the result symbolic
(modelled from the spec, concrete cases are exact Python semantics). -/
def SInt.mul : SInt → SInt → SInt
  | .i a, .i b => .i (a * b)
  | .sym v, _ => .sym v
  | .i _, .sym v => .sym v

/-- Addition on `sint` (same conventions as `SInt.mul`). -/
def SInt.add : SInt → SInt → SInt
  | .i a, .i b => .i (a + b)
  | .sym v, _ => .sym v
  | .i _, .sym v => .sym v

/-- Subtraction on `sint` (same conventions as `SInt.mul`). -/
def SInt.sub : SInt → SInt → SInt
  | .i a, .i b => .i (a - b)
  | .sym v, _ => .sym v
  | .i _, .sym v => .sym v

/-- Python floor division `s // m` by a concrete int (`Int.fdiv` is Python's
floor division on concrete values). -/
def SInt.fdivInt : SInt → Int → SInt
  | .i a, m => .i (a.fdiv m)
  | .sym v, _ => .sym v

/-- Python truthiness of `s == k` for a concrete `k`: false for a symbolic
value (a tinygrad `UOp` never compares equal to a plain int). -/
def SInt.eqInt : SInt → Int → Bool
  | .i a, b => a == b
  | .sym _, _ => false

/-- Python truthiness of `s % m == 0` (`Int.fmod` is Python's `%` on
concrete values); false for a symbolic dividend, modelled from the spec's
rule that only concrete amounts pass the shift checks.  A zero modulus is
a Python `ZeroDivisionError`; the model returns false there. -/
def SInt.modz : SInt → Int → Bool
  | .i a, m => m != 0 && a.fmod m == 0
  | .sym _, _ => false

/-- Python truthiness of `s % d != 0` as used through `resolve` in the
tensor-core matcher; a symbolic size is taken to need padding. -/
def SInt.modNeq (s : SInt) (d : Nat) : Bool :=
  match s with
  | .i a => !(a.fmod (d : Int) == 0)
  | .sym _ => true

/-- Python truthiness of `s <= m`: false for a symbolic value (modelled
from the spec; the concrete case is exact). -/
def SInt.leInt : SInt → Int → Bool
  | .i a, m => a ≤ m
  | .sym _, _ => false

/-- Python truthiness of `s > m`: true for a symbolic value (modelled from
the spec; the concrete case is exact). -/
def SInt.gtIntv : SInt → Int → Bool
  | .i a, m => m < a
  | .sym _, _ => true

/-- Python truthiness of `s > 1` as used in `shift_to`; a symbolic size is
taken to be greater than one. -/
def SInt.gtOne : SInt → Bool
  | .i a => 1 < a
  | .sym _ => true

/-- Python truthiness of a bare `sint` (`if ru:`): nonzero for concrete
values, true for symbolic ones. -/
def SInt.truthy : SInt → Bool
  | .i a => a != 0
  | .sym _ => true

/-- Product of a list of `sint`s: tinygrad `helpers.prod`, modelled from the
spec (a fold of `*` starting at 1). -/
def sprod (xs : List SInt) : SInt := xs.foldl SInt.mul (.i 1)

/-- Round `s` up to a multiple of `amt`: tinygrad `helpers.round_up`,
modelled from the spec. -/
def roundUp (s : SInt) (amt : Int) : SInt :=
  match s with
  | .i n => .i ((n + amt - 1).fdiv amt * amt)
  | .sym v => .sym v

/-- Order-preserving deduplication keeping first occurrences: tinygrad
`helpers.dedup`, modelled from the spec. -/
def dedup {α : Type} [DecidableEq α] (xs : List α) : List α :=
  xs.foldl (fun acc x => if x ∈ acc then acc else acc ++ [x]) []

/-- Python `all(x == items[0] for x in items)`: tinygrad `helpers.all_same`,
modelled from the spec. -/
def allSame {α : Type} [BEq α] (xs : List α) : Bool :=
  match xs with
  | [] => true
  | x :: rest => rest.all (fun y => y == x)

/-- Normalize a Python slice endpoint against a list length. -/
def pyBound (n : Nat) (x : Int) : Nat :=
  if x < 0 then (max 0 (x + n)).toNat else min x.toNat n

/-- Python slice `xs[a:b]` with int endpoints (negative values count from
the end, out-of-range values clamp). -/
def pySlice {α : Type} (xs : List α) (a b : Int) : List α :=
  let s := pyBound xs.length a
  let t := pyBound xs.length b
  (xs.drop s).take (t - s)

/-- Python slice `xs[a:]`. -/
def pyDrop {α : Type} (xs : List α) (a : Int) : List α :=
  xs.drop (pyBound xs.length a)

/-- Python slice `xs[:b]`. -/
def pyTake {α : Type} (xs : List α) (b : Int) : List α :=
  xs.take (pyBound xs.length b)

/-- Python indexing `xs[i]` with wraparound for negative `i`; an index that
Python would reject with IndexError returns the default `d` (the embedded
code only indexes in range on the paths the theorems exercise). -/
def pyGet {α : Type} (xs : List α) (i : Int) (d : α) : α :=
  if 0 ≤ i then xs.getD i.toNat d
  else if 0 ≤ i + xs.length then xs.getD (i + xs.length).toNat d else d

/-- Count of `true` entries (Python `sum` over a list of bools). -/
def countTrue (xs : List Bool) : Int :=
  ((xs.filter (fun b => b)).length : Int)

/-- Filter `xs` keeping the entries whose mask position is false, mirroring
`[x for i,x in enumerate(shape) if not all_ones[i]]`; entries beyond the
mask are kept (Python would raise IndexError there). -/
def maskFilter {α : Type} : List Bool → List α → List α
  | _, [] => []
  | [], x :: xs => x :: maskFilter [] xs
  | b :: ms, x :: xs => if b then maskFilter ms xs else x :: maskFilter ms xs

/-- Modelled from the spec: the optimizer treats a ShapeTracker as a pure
value exposing `shape` and `real_strides()` (a stride per axis, or unknown
when masked/non-affine).  The view chain itself is outside the snapshot. -/
structure ShapeTracker where
  shape : List SInt
  strides : List (Option SInt)
deriving DecidableEq, Repr

/-- Empty tracker used as the out-of-range default for `sts` lookups. -/
def stNil : ShapeTracker := ⟨[], []⟩

/-- Modelled from the spec: `permute` reorders axes; new axis `k` is old
axis `perm[k]`.  Pure. -/
def ShapeTracker.permute (st : ShapeTracker) (perm : List Nat) : ShapeTracker :=
  { shape := perm.map (fun a => st.shape.getD a (.i 1)),
    strides := perm.map (fun a => st.strides.getD a none) }

/-- Modelled from the spec: `reshape` yields a tracker with the new shape.
It is the identity when the shape is unchanged (tinygrad's View.reshape
short-circuits an equal shape); otherwise the spec only promises the new
shape, so the real strides of the result are recorded as unknown. -/
def ShapeTracker.reshape (st : ShapeTracker) (ns : List SInt) : ShapeTracker :=
  if ns = st.shape then st else { shape := ns, strides := List.replicate ns.length none }

/-- Modelled from the spec: `pad` grows each axis by the given
(before, after) amounts and keeps the recorded strides. -/
def ShapeTracker.pad (st : ShapeTracker) (pads : List (SInt × SInt)) : ShapeTracker :=
  { shape := st.shape.zipWith (fun s p => (s.add p.1).add p.2) pads,
    strides := st.strides }

/-- Opcode set used by the optimizer (subset of tinygrad `Ops`). -/
inductive Ops where
  | SINK | LOAD | STORE | CONST | VALID | VIEW | REDUCE_AXIS | MUL | CAST
  | ADD | MAX | RECIP | DEFINE_GLOBAL | DEFINE_LOCAL | WMMA | CONTRACT
  | UNROLL | NAME
deriving DecidableEq, Repr

/-- Membership in `GroupOp.Buffer` (the spec: LOAD, STORE, CONST, VALID). -/
def Ops.isBuffer : Ops → Bool
  | .LOAD | .STORE | .CONST | .VALID => true
  | _ => false

/-- Dtype descriptor: `itemsize` plus the base shape when the dtype is an
ImageDType (modelled from the spec). -/
structure DType where
  itemsize : Nat
  imageShape : Option (List SInt)
deriving DecidableEq, Repr

/-- Scalar stand-in dtype used as an out-of-range lookup default. -/
def dtNil : DType := ⟨4, none⟩

/-- Node argument: the optimizer only inspects the `(reduce kind, axes)`
argument of `REDUCE_AXIS` nodes. -/
inductive UArg where
  | none
  | reduceArg (k : Ops) (axes : List Nat)
deriving DecidableEq, Repr

/-- Operation-graph node: opcode, dtype, ordered sources, argument. -/
inductive UOp where
  | mk (op : Ops) (dtype : DType) (src : List UOp) (arg : UArg)

/-- Opcode of a node. -/
def UOp.op : UOp → Ops
  | .mk o _ _ _ => o

/-- Dtype of a node. -/
def UOp.dtype : UOp → DType
  | .mk _ d _ _ => d

/-- Sources of a node. -/
def UOp.src : UOp → List UOp
  | .mk _ _ s _ => s

/-- Argument of a node. -/
def UOp.arg : UOp → UArg
  | .mk _ _ _ a => a

/-- Node used as an out-of-range lookup default. -/
def uopNil : UOp := .mk .SINK dtNil [] .none

/-- Source `i` of a node (Python `src[i]`, defaulting instead of raising). -/
def UOp.srcN (u : UOp) (i : Nat) : UOp := u.src.getD i uopNil

/-- Reduction kind of a `REDUCE_AXIS` node (`r.arg[0]`). -/
def UOp.reduceKind (u : UOp) : Ops :=
  match u.arg with
  | .reduceArg k _ => k
  | .none => .SINK

/-- Axis tuple of a `REDUCE_AXIS` node (`r.axis_arg`). -/
def UOp.axis_arg (u : UOp) : List Nat :=
  match u.arg with
  | .reduceArg _ axes => axes
  | .none => []

mutual

/-- Decidable structural equality on nodes (tinygrad UOps are hash-consed,
so Python `==` between live nodes is structural equality). -/
def UOp.decEq : (a b : UOp) → Decidable (a = b)
  | .mk o1 d1 s1 a1, .mk o2 d2 s2 a2 =>
    if h1 : o1 = o2 then
      if h2 : d1 = d2 then
        if h3 : a1 = a2 then
          match UOp.decEqList s1 s2 with
          | .isTrue h4 => .isTrue (by rw [h1, h2, h3, h4])
          | .isFalse h4 => .isFalse (fun he => by cases he; exact h4 rfl)
        else .isFalse (fun he => by cases he; exact h3 rfl)
      else .isFalse (fun he => by cases he; exact h2 rfl)
    else .isFalse (fun he => by cases he; exact h1 rfl)

/-- Decidable structural equality on source lists. -/
def UOp.decEqList : (xs ys : List UOp) → Decidable (xs = ys)
  | [], [] => .isTrue rfl
  | x :: xs, y :: ys =>
    match UOp.decEq x y, UOp.decEqList xs ys with
    | .isTrue h1, .isTrue h2 => .isTrue (by rw [h1, h2])
    | .isFalse h1, _ => .isFalse (fun he => by cases he; exact h1 rfl)
    | .isTrue _, .isFalse h2 => .isFalse (fun he => by cases he; exact h2 rfl)
  | [], _ :: _ => .isFalse (fun he => by cases he)
  | _ :: _, [] => .isFalse (fun he => by cases he)

end

instance : DecidableEq UOp := UOp.decEq

/-- Ops that are not pad-neutral (`f(0) = 0` fails), modelled from the
spec's `can_pad` contract for ALU ancestors. -/
def padNeutral : Ops → Bool
  | .RECIP => false
  | _ => true

mutual

/-- Modelled from the spec: `can_pad` (tinygrad.ops, outside the snapshot)
holds when every op in the subtree is pad-neutral. -/
def UOp.canPad : UOp → Bool
  | .mk o _ src _ => padNeutral o && UOp.canPadList src

/-- Pad-neutrality of a source list. -/
def UOp.canPadList : List UOp → Bool
  | [] => true
  | x :: xs => UOp.canPad x && UOp.canPadList xs

end

/-- Modelled from the spec: a renderer tensor-core descriptor (dims,
dtypes, canonical opt program, helper axis lists). -/
structure TensorCore where
  dims : List Nat
  dtype_in : DType
  dtype_out : DType
  threads : Nat
  elements_per_thread : List Nat
  opts : List (Char × Nat)
  reduce_axes : List (Nat × Nat)
  upcast_axes : List (Nat × Nat)
  local_axes : List Nat
deriving DecidableEq, Repr

/-- Tensor-core descriptor used as an out-of-range lookup default. -/
def tcNil : TensorCore := ⟨[], dtNil, dtNil, 1, [], [], [], [], []⟩

/-- The `get_reduce_axes()` helper of a descriptor. -/
def TensorCore.get_reduce_axes (tc : TensorCore) : List (Nat × Nat) := tc.reduce_axes

/-- The `get_local_axes()` helper of a descriptor. -/
def TensorCore.get_local_axes (tc : TensorCore) : List Nat := tc.local_axes

/-- `TensorCoreOptions`: the matcher's record of where the N, M, K axes
currently live (kernel.py lines 26-36). -/
structure TensorCoreOptions where
  axes : List Nat
  axes_exist : List Bool
  axis_pads : List (Nat × Nat)
deriving DecidableEq, Repr

/-- Empty options record used as a lookup default. -/
def tcoNil : TensorCoreOptions := ⟨[], [], []⟩

/-- One pass of the `for tc_dim in [i for i in range(2) if axes_exist[i]]`
body of `fix_axes` for a fixed `tc_dim`. -/
def fixAxesStep (removed : Int) (p : List Nat × List Bool) (d : Nat) : List Nat × List Bool :=
  if p.2.getD d false then
    let a := p.1.getD d 0
    if removed < (a : Int) then (p.1.set d (a - 1), p.2)
    else if removed = (a : Int) then (p.1, p.2.set d false)
    else p
  else p

/-- `TensorCoreOptions.fix_axes`: adjust the stored axes when a dimension
was removed by `simplify_ones` (kernel.py lines 31-36). -/
def TensorCoreOptions.fix_axes (t : TensorCoreOptions) (removed : Int) : TensorCoreOptions :=
  let p := fixAxesStep removed (fixAxesStep removed (t.axes, t.axes_exist) 0) 1
  { t with axes := p.1, axes_exist := p.2 }

/-- Modelled from the spec: the renderer capability descriptor consumed by
the optimizer. -/
structure Renderer where
  has_local : Bool
  has_shared : Bool
  shared_max : Int
  device : String
  tensor_cores : List TensorCore
deriving DecidableEq, Repr

/-- The opt kinds of `OptOps`. -/
inductive OptOps where
  | TC | UPCAST | UNROLL | LOCAL | GROUP | GROUPTOP | NOLOCALS | PADTO | SWAP
deriving DecidableEq, Repr

/-- Argument of an `Opt`: absent, a plain int, or the `(tc_select, tc_opt)`
pair of a TC opt. -/
inductive OptArg where
  | none
  | int (n : Int)
  | pair (a b : Int)
deriving DecidableEq, Repr

/-- An optimization operator `(op, axis, arg)`. -/
structure Opt where
  op : OptOps
  axis : Option Int
  arg : OptArg
deriving DecidableEq, Repr

/-- Error raised by the optimizer: `KernelOptError` with its message, or a
failed Python `assert` (which is not caught by the `except KernelOptError`
handlers). -/
inductive KErr where
  | kernelOptError (msg : String)
  | assertError
deriving DecidableEq, Repr

/-- Kernel state: the mutable record built by `Kernel.__init__`.
`reduceops`, `bufs`, `vars`, `full_buf_index` and `opts` are fixed at
construction; the rest is mutated by `apply_opt` and the simplifiers.
`use_tc_env` snapshots the `USE_TC` context variable that `apply_opt`
reads on its TC path. -/
structure Kernel where
  opts : Renderer
  reduceops : List UOp
  bufs : List UOp
  vars : List Nat
  full_buf_index : Nat
  sts : List ShapeTracker
  applied_opts : List Opt
  group_for_reduces : Int
  upcasted : Int
  local_dims : Int
  tensor_core : Option TensorCore
  tensor_core_opts : Option TensorCoreOptions
  use_tensor_cores : Int
  dont_use_locals : Bool
  use_tc_env : Int
deriving DecidableEq

/-- Result of a mutating call: `ok` with the new state, or `error` with the
raised error and the state as the exception left it (Python objects keep
the mutations performed before a raise). -/
abbrev KRes := Except (Kernel × KErr) Kernel

/-- The `check` helper (kernel.py lines 23-24) threaded with the current
state. -/
def checkK (k : Kernel) (cond : Bool) (msg : String) : Except (Kernel × KErr) Unit :=
  if cond then .ok () else .error (k, .kernelOptError msg)

/-- Property `shape_len`: length of `sts[0].shape`. -/
def Kernel.shape_len (k : Kernel) : Nat := (k.sts.getD 0 stNil).shape.length

/-- Property `output_shape`: `sts[0].shape`. -/
def Kernel.output_shape (k : Kernel) : List SInt := (k.sts.getD 0 stNil).shape

/-- Property `full_shape`: `sts[full_buf_index].shape`. -/
def Kernel.full_shape (k : Kernel) : List SInt := (k.sts.getD k.full_buf_index stNil).shape

/-- Property `first_upcast = shape_len - upcasted` (an int: `upcasted` can
exceed `shape_len` only in ill-formed states, but Python would compute the
difference all the same). -/
def Kernel.first_upcast (k : Kernel) : Int := (k.shape_len : Int) - k.upcasted

/-- Property `first_reduce`: index of the first position (capped by a
sentinel pair) where `sts[0].shape` diverges from `full_shape` below
`first_upcast` (kernel.py lines 113-115). -/
def Kernel.first_reduce (k : Kernel) : Nat :=
  ((pyTake k.output_shape k.first_upcast ++ [SInt.i 0]).zip
    (pyTake k.full_shape k.first_upcast ++ [SInt.i 1])).findIdx (fun p => p.1 != p.2)

/-- Property `global_dims = first_reduce - local_dims`. -/
def Kernel.global_dims (k : Kernel) : Int := (k.first_reduce : Int) - k.local_dims

/-- Property `reduceop`: the first reduce op if any. -/
def Kernel.reduceop (k : Kernel) : Option UOp := k.reduceops.head?

/-- Property `membufs`: deduplicated `src[0]` of LOAD/STORE buffers. -/
def Kernel.membufs (k : Kernel) : List UOp :=
  dedup ((k.bufs.filter (fun x => x.op == .LOAD || x.op == .STORE)).map (fun x => x.srcN 0))

/-- Method `reshape_and_permute`: apply an optional reshape function and an
optional permutation to every shape-tracker (kernel.py lines 170-173). -/
def Kernel.reshape_and_permute (k : Kernel)
    (reshapeFn : Option (List SInt → List SInt)) (perm : Option (List Nat)) : Kernel :=
  { k with sts := k.sts.map (fun st =>
      let st1 := match reshapeFn with
        | some f => st.reshape (f st.shape)
        | none => st
      match perm with
      | some p => st1.permute p
      | none => st1) }

/-- Method `upcast`: drop the final dimension into the upcasted segment;
fails when its size is 1 (kernel.py lines 176-178). -/
def Kernel.upcast (k : Kernel) : KRes :=
  if (pyGet k.full_shape (-1) (.i 1)).eqInt 1 then
    .error (k, .kernelOptError "can't upcast a dimension with size 1")
  else .ok { k with upcasted := k.upcasted + 1 }

/-- Method `shift_to`: split axis `a` into two axes of sizes
`(amount, n/amount)` (top) or `(n/amount, amount)`, degenerating to `(1,1)`
when `n` is 1, then move the new `amount` axis just before `insert_before`
(kernel.py lines 184-190). -/
def Kernel.shift_to (k : Kernel) (axis : Nat) (amount : Int) (top : Bool)
    (insert_before : Option Int) : Kernel :=
  let ib0 : Int := match insert_before with
    | some i => i
    | none => (k.shape_len : Int)
  let move_axis : Nat := if top then axis else axis + 1
  let ib : Int := if (move_axis : Int) < ib0 then ib0 + 1 else ib0
  let ibN : Nat := ib.toNat
  let perm : List Nat :=
    (List.range ibN).filter (fun i => i ≠ move_axis) ++ [move_axis] ++
    ((List.range (k.shape_len + 1)).filter (fun i => ibN ≤ i ∧ i ≠ move_axis))
  k.reshape_and_permute
    (some (fun x =>
      x.take axis ++
      (if (x.getD axis (.i 1)).gtOne then
        (if top then [SInt.i amount, (x.getD axis (.i 1)).fdivInt amount]
         else [(x.getD axis (.i 1)).fdivInt amount, SInt.i amount])
       else [SInt.i 1, SInt.i 1]) ++
      x.drop (axis + 1)))
    (some perm)

/-- Method `simplify_ones`: remove every axis whose `full_shape` entry is 1,
adjusting `local_dims` and `upcasted` for removed axes inside those
segments; returns whether anything was removed (kernel.py lines 194-202). -/
def Kernel.simplify_ones (k : Kernel) : Kernel × Bool :=
  if k.shape_len = 0 then (k, false)
  else
    let all_ones := k.full_shape.map (fun s => s.eqInt 1)
    let fr : Int := (k.first_reduce : Int)
    let fu : Int := k.first_upcast
    let k1 := { k with
      local_dims := k.local_dims - countTrue (pySlice all_ones (fr - k.local_dims) fr),
      upcasted := k.upcasted - countTrue (pyDrop all_ones fu) }
    let k2 := k1.reshape_and_permute (some (fun shape => maskFilter all_ones shape)) none
    (k2, all_ones.any (fun b => b))

/-- Helper for `strides_for_shape`: raw C-contiguous strides. -/
def stridesForShapeRaw : List SInt → List SInt
  | [] => []
  | _ :: rest => sprod rest :: stridesForShapeRaw rest

/-- Modelled from the spec: `strides_for_shape` (tinygrad.shape.view,
outside the snapshot): C-contiguous strides with stride 0 on size-1 axes. -/
def strides_for_shape (shape : List SInt) : List SInt :=
  shape.zipWith (fun s st => if s.eqInt 1 then .i 0 else st) (stridesForShapeRaw shape)

/-- Helper for `get_contraction`: greedily take entries until their product
matches `target`, returning the count taken and the remainder. -/
def splitProdGo (target : SInt) (acc : SInt) (taken : Nat) : List SInt → Option (Nat × List SInt)
  | [] => if acc == target then some (taken, []) else none
  | y :: ys =>
    if acc == target then some (taken, y :: ys)
    else splitProdGo target (acc.mul y) (taken + 1) ys

/-- Helper for `get_contraction`: group `big` against each base entry. -/
def getContractionGo (pos : Nat) (big : List SInt) : List SInt → Option (List (List Nat))
  | [] => if big.isEmpty then some [] else none
  | b :: rest =>
    match splitProdGo b (.i 1) 0 big with
    | none => none
    | some (cnt, remaining) =>
      match getContractionGo (pos + cnt) remaining rest with
      | none => none
      | some gs => some ((List.range cnt).map (fun j => pos + j) :: gs)

/-- Modelled from the spec: `get_contraction` (codegen.lowerer, outside the
snapshot) groups consecutive axes of `big` so each group's product equals
the corresponding `base` entry; `none` when impossible. -/
def get_contraction (big base : List SInt) : Option (List (List Nat)) :=
  getContractionGo 0 big base

/-- The per-tracker (shape, real_strides) rows of `simplify_merge_adjacent`,
including the synthetic image-stride row when the first membuf has an image
dtype (kernel.py lines 206-219).  The source's in-loop assert about
`get_contraction` holds by construction of the model's contraction. -/
def Kernel.smaRows (k : Kernel) : List (List SInt × List (Option SInt)) :=
  let base := k.sts.map (fun st => (st.shape, st.strides))
  match (k.membufs.getD 0 uopNil).dtype.imageShape with
  | some base_shape =>
    match get_contraction k.output_shape base_shape with
    | some groups =>
      if groups.isEmpty then base
      else
        let special := groups.flatMap (fun g =>
          strides_for_shape (g.map (fun x => k.output_shape.getD x (.i 1))))
        base ++ [(k.output_shape, special.map some)]
    | none => base
  | none => base

/-- Python truthiness of `sti != 0` for a known stride; a symbolic stride is
taken nonzero. -/
def strideNeqZero : SInt → Bool
  | .i a => a != 0
  | .sym _ => true

/-- The `can_merge` condition for one tracker at loop index `i`
(kernel.py lines 228-231). -/
def smaCanMerge (si : SInt) (sti : Option SInt) (lastSt : Option SInt) : Bool :=
  match sti with
  | none => false
  | some stv =>
    (strideNeqZero stv && lastSt == some (si.mul stv)) ||
    (!strideNeqZero stv && lastSt == some (SInt.i 0))

/-- Stride of the last merged entry of a row result (`ret[-1][1]`). -/
def lastStride (ret : List (SInt × Option SInt)) : Option SInt :=
  (ret.getLast?.getD (SInt.i 1, none)).2

/-- Size of the last merged entry of a row result (`ret[-1][0]`). -/
def lastSize (ret : List (SInt × Option SInt)) : SInt :=
  (ret.getLast?.getD (SInt.i 1, none)).1

/-- One iteration `i` of the merge loop over all rows
(kernel.py lines 226-236). -/
def smaStep (fr : Nat) (rows : List (List SInt × List (Option SInt)))
    (rets : List (List (SInt × Option SInt))) (i : Nat) : List (List (SInt × Option SInt)) :=
  let mergeable := ((rows.zip rets).all (fun rr =>
      smaCanMerge (rr.1.1.getD i (.i 1)) (rr.1.2.getD i none) (lastStride rr.2))) && i != fr
  (rows.zip rets).map (fun rr =>
    let si := rr.1.1.getD i (.i 1)
    let sti := rr.1.2.getD i none
    if mergeable then rr.2.dropLast ++ [((lastSize rr.2).mul si, sti)]
    else rr.2 ++ [(si, sti)])

/-- Initial row results `[[(s[0], st[0])] for s,st in zip(shapes, strides)]`
(kernel.py line 225). -/
def smaInit (rows : List (List SInt × List (Option SInt))) : List (List (SInt × Option SInt)) :=
  rows.map (fun r => [(r.1.getD 0 (.i 1), r.2.getD 0 none)])

/-- The full merge loop `for i in range(1, len(shapes[0]))`
(kernel.py lines 225-236). -/
def smaRets (fr : Nat) (rows : List (List SInt × List (Option SInt))) :
    List (List (SInt × Option SInt)) :=
  let n := (rows.getD 0 ([], [])).1.length
  (List.range' 1 (n - 1)).foldl (smaStep fr rows) (smaInit rows)

/-- Method `simplify_merge_adjacent` (kernel.py lines 204-239): greedily
merge adjacent axes when every tracker allows it, never across
`first_reduce`, then reshape the first `len(sts)` rows back. -/
def Kernel.simplify_merge_adjacent (k : Kernel) : Kernel :=
  if k.shape_len = 0 then k
  else
    let rows := k.smaRows
    let rets := smaRets k.first_reduce rows
    { k with sts := (k.sts.zip rets).map (fun p => p.1.reshape (p.2.map Prod.fst)) }

/-- Method `real_axis` (kernel.py lines 336-340). -/
def Kernel.real_axis (k : Kernel) (o : Opt) : Int :=
  match o.axis with
  | none => -1
  | some ax =>
    match o.op with
    | .UNROLL => (k.first_reduce : Int) + ax
    | .GROUP => (k.first_reduce : Int) + k.group_for_reduces + ax
    | .GROUPTOP => (k.first_reduce : Int) + k.group_for_reduces + ax
    | _ => ax

/-- Line 362 of `apply_opt`: the effective amount
`arg if arg != 0 else full_shape[axis]`. -/
def Kernel.amtOf (k : Kernel) (n : Int) (axis : Int) : SInt :=
  if n = 0 then pyGet k.full_shape axis (.i 1) else .i n

/-- Lines 359-365 of `apply_opt`: resolve the effective amount `amt` (the
arg itself for SWAP; `full_shape[axis]` when the arg is 0; `-1` when the
arg is absent), with the int/not-1 and divisibility checks. -/
def Kernel.kernelAmt (k : Kernel) (o : Opt) (axis : Int) : Except (Kernel × KErr) SInt :=
  if o.op == .SWAP then
    match o.arg with
    | .int n => .ok (.i n)
    | _ => .ok (.sym 0)
  else
    match o.arg with
    | .none => .ok (.i (-1))
    | .pair _ _ => .error (k, .kernelOptError "arg should be int")
    | .int n =>
      if !((k.amtOf n axis).isInt && !((k.amtOf n axis).eqInt 1)) then
        .error (k, .kernelOptError ("shift/padto of amt=" ++ (k.amtOf n axis).str ++
          ", 1 or symbolic amount is meaningless"))
      else if o.op != .PADTO && !((pyGet k.full_shape axis (.i 1)).modz (k.amtOf n axis).toInt) then
        .error (k, .kernelOptError ("no longer valid shift self.full_shape[axis]=" ++
          (pyGet k.full_shape axis (.i 1)).str ++ ", amt=" ++ (k.amtOf n axis).str))
      else .ok (k.amtOf n axis)

/-- The shared-memory budget `amt * acc_sz * upcast_sz * local_sz` of
lines 369-372 of `apply_opt`. -/
def Kernel.smemSize (k : Kernel) (r : UOp) (amt : SInt) : SInt :=
  ((amt.mul (.i (r.dtype.itemsize : Int))).mul
    (sprod (((pyDrop k.full_shape k.first_upcast).zip
      (pyDrop k.output_shape k.first_upcast)).filterMap (fun p =>
        if p.1 == p.2 then some p.1 else none)))).mul
    (sprod (pySlice k.full_shape ((k.first_reduce : Int) - k.local_dims)
      ((k.first_reduce : Int) + k.group_for_reduces)))

/-- Lines 367-373 of `apply_opt`: the shared-memory budget gate, run for
GROUP/GROUPTOP and, once grouping happened, for every op other than
NOLOCALS and PADTO. -/
def Kernel.smemGate (k : Kernel) (o : Opt) (amt : SInt) : Except (Kernel × KErr) Unit :=
  match k.reduceops.head? with
  | some r =>
    if (o.op == .GROUP || o.op == .GROUPTOP) ||
       (!(k.group_for_reduces == 0) && !(o.op == .NOLOCALS) && !(o.op == .PADTO)) then
      checkK k ((k.smemSize r amt).leInt k.opts.shared_max)
        ("exceeds maximum shared memory size: needs " ++ (k.smemSize r amt).str ++ ", max " ++
          toString k.opts.shared_max)
    else .ok ()
  | none => .ok ()

/-- The right-padding tuple `((0,0),)*axis + ((0,ru),) + ((0,0),)*(len-axis-1)`
of the PADTO branch (kernel.py line 425). -/
def padtoPads (st : ShapeTracker) (axis : Int) (ru : SInt) : List (SInt × SInt) :=
  List.replicate axis.toNat (SInt.i 0, SInt.i 0) ++ [(SInt.i 0, ru)] ++
    List.replicate (st.shape.length - axis.toNat - 1) (SInt.i 0, SInt.i 0)

/-- Size of tracker `i` at `axis` (`st.shape[axis]` in the PADTO loop). -/
def padtoSize (k : Kernel) (i : Nat) (axis : Int) : SInt :=
  pyGet (k.sts.getD i stNil).shape axis (.i 1)

/-- The padding `ru = round_up(s, amt) - s` of tracker `i`. -/
def padtoRu (k : Kernel) (i : Nat) (axis amtI : Int) : SInt :=
  (roundUp (padtoSize k i axis) amtI).sub (padtoSize k i axis)

/-- The `for i,st in enumerate(self.sts)` padding loop of the PADTO branch
(kernel.py lines 419-426); an error keeps the partially padded state, as
the surviving Python object does. -/
def padtoFold (axis amtI : Int) : List Nat → Kernel → Bool → Except (Kernel × KErr) (Kernel × Bool)
  | [], k, padded => .ok (k, padded)
  | i :: rest, k, padded =>
    if (padtoSize k i axis).eqInt 1 then padtoFold axis amtI rest k padded
    else if !((padtoSize k i axis).gtIntv (amtI.fdiv 4)) then
      .error (k, .kernelOptError ("pad adds more than quadruple the work st.shape[axis]=" ++
        (padtoSize k i axis).str ++ " > amt//4=" ++ toString (amtI.fdiv 4)))
    else if (padtoRu k i axis amtI).truthy then
      padtoFold axis amtI rest
        { k with sts := k.sts.set i ((k.sts.getD i stNil).pad
            (padtoPads (k.sts.getD i stNil) axis (padtoRu k i axis amtI))) } true
    else padtoFold axis amtI rest k padded

/-- Line 395 of `apply_opt`: pre-increment `local_dims` when the reduce
axis at `first_reduce` is fully unrolled (offsets the `simplify_ones`
removal). -/
def Kernel.unrollAdjust1 (k : Kernel) (axis : Int) (amt : SInt) : Kernel :=
  if (pyGet k.full_shape axis (.i 1)) == amt && axis == (k.first_reduce : Int) then
    { k with local_dims := k.local_dims + 1 }
  else k

/-- Line 396 of `apply_opt`: decrement `group_for_reduces` when a grouped
axis is fully unrolled. -/
def Kernel.unrollAdjust2 (k : Kernel) (axis : Int) (amt : SInt) : Kernel :=
  if (pyGet k.full_shape axis (.i 1)) == amt &&
      decide (axis < (k.first_reduce : Int) + k.group_for_reduces) then
    { k with group_for_reduces := k.group_for_reduces - 1 }
  else k

/-- The `can_pad` gate of the PADTO branch (kernel.py line 418). -/
def Kernel.padtoCheck (k : Kernel) (axis : Int) : Except (Kernel × KErr) Unit :=
  match k.reduceops.head? with
  | some r =>
    if decide ((k.first_reduce : Int) ≤ axis) then
      checkK k ((r.reduceKind == .ADD) && r.canPad) "cannot pad reduceop"
    else .ok ()
  | none => .ok ()

/-- The per-kind branch bodies of `apply_opt` (kernel.py lines 375-427).
The TC kind never reaches this function (it returns at line 354); its case
is the uncatchable assert-style dead branch. -/
def Kernel.applyBranch (k : Kernel) (o : Opt) (axis : Int) (amt : SInt) : KRes :=
  match o.op with
  | .TC => .error (k, .assertError)
  | .LOCAL =>
    if !k.opts.has_local then .error (k, .kernelOptError "target does not support local")
    else if !(decide (axis < k.global_dims)) then .error (k, .kernelOptError "local is for globals")
    else
      let k1 := k.shift_to axis.toNat amt.toInt false (some (k.first_reduce : Int))
      .ok { k1 with local_dims := k1.local_dims + 1 }
  | .GROUP | .GROUPTOP =>
    if !(k.opts.has_local && k.opts.has_shared) then
      .error (k, .kernelOptError "target does not support local or shared mem")
    else if !(decide ((k.first_reduce : Int) + k.group_for_reduces ≤ axis) &&
              decide (axis < k.first_upcast)) then
      .error (k, .kernelOptError "must be reduce axis to group")
    else if k.tensor_core.isSome then .error (k, .kernelOptError "can't group with tensor cores")
    else if !((k.reduceops.flatMap (fun r => r.axis_arg)).length ==
              (dedup (k.reduceops.flatMap (fun r => r.axis_arg))).length) then
      .error (k, .kernelOptError "can't group with parallel reduces")
    else
      let k1 := k.shift_to axis.toNat amt.toInt (o.op == .GROUPTOP)
        (some ((k.first_reduce : Int) + k.group_for_reduces))
      .ok { k1 with group_for_reduces := k1.group_for_reduces + 1 }
  | .UNROLL =>
    if !(decide (axis < k.first_upcast)) then
      .error (k, .kernelOptError "can't upcasted already upcasted")
    else if !(amt.leInt 32) then .error (k, .kernelOptError "don't unroll more than 32")
    else
      (((k.unrollAdjust1 axis amt).unrollAdjust2 axis amt).shift_to
        axis.toNat amt.toInt false none).upcast
  | .UPCAST =>
    if !(decide (axis < (k.first_reduce : Int))) then
      .error (k, .kernelOptError "upcast is for non-reduce")
    else if (match k.tensor_core with
      | some tc => decide (k.global_dims ≤ axis) &&
          decide (axis < k.global_dims + (tc.get_local_axes.length : Int))
      | none => false) then .error (k, .kernelOptError "can't upcast TC locals")
    else if !((k.opts.device == "DSP") || amt.leInt 16) then
      .error (k, .kernelOptError "don't upcast more than 16")
    else (k.shift_to axis.toNat amt.toInt false none).upcast
  | .NOLOCALS =>
    if !(k.opts.has_local && !k.dont_use_locals) then
      .error (k, .kernelOptError
        "NOLOCALS is meaningless if target does not support local or already not using locals")
    else if !(k.local_dims == 0 && k.group_for_reduces == 0) then
      .error (k, .kernelOptError "can't have no locals with locals")
    else .ok { k with dont_use_locals := true }
  | .SWAP =>
    if !(match amt with
      | .i n => decide (axis < n) && decide (n < k.global_dims)
      | .sym _ => false) then
      .error (k, .kernelOptError ("swap is only for globals with axis < amt, getting amt=" ++
        amt.str ++ ", axis=" ++ toString axis ++ ", self.global_dims=" ++ toString k.global_dims))
    else
      .ok (k.reshape_and_permute none (some ((List.range k.shape_len).map (fun i =>
        if i = axis.toNat then amt.toInt.toNat
        else if i = amt.toInt.toNat then axis.toNat else i))))
  | .PADTO =>
    if !k.vars.isEmpty then .error (k, .kernelOptError "does not work with symbolic shape")
    else if !(decide (axis < k.first_upcast)) then .error (k, .kernelOptError "cannot pad upcasted")
    else
      match k.padtoCheck axis with
      | .error e => .error e
      | .ok () =>
        match padtoFold axis amt.toInt (List.range k.sts.length) k false with
        | .error e => .error e
        | .ok (k1, padded) =>
          if padded then .ok k1 else .error (k1, .kernelOptError "nothing was padded")

/-- Lines 429-431 of `apply_opt`: append the opt (unless suppressed), run
`simplify_ones`, and fix the tensor-core axes when axes were removed. -/
def Kernel.applyTail (k1 : Kernel) (o : Opt) (append_opt : Bool) (axis : Int) : Kernel :=
  let k2 := if append_opt then { k1 with applied_opts := k1.applied_opts ++ [o] } else k1
  let p := k2.simplify_ones
  if p.2 then
    match p.1.tensor_core_opts with
    | some tco => { p.1 with tensor_core_opts := some (tco.fix_axes axis) }
    | none => p.1
  else p.1

/-- The non-TC body of `apply_opt` (kernel.py lines 343, 356-431): gate,
axis resolution, amount checks, shared-memory gate, branch, opt append,
trailing `simplify_ones` with `fix_axes`. -/
def Kernel.applyOptCore (k : Kernel) (o : Opt) (append_opt : Bool) : KRes :=
  if k.dont_use_locals && (o.op == .LOCAL || o.op == .GROUP || o.op == .GROUPTOP) then
    .error (k, .kernelOptError "not using locals")
  else if !(decide (k.real_axis o < (k.full_shape.length : Int))) then
    .error (k, .kernelOptError "invalid axis")
  else
    match k.kernelAmt o (k.real_axis o) with
    | .error e => .error e
    | .ok amt =>
      match k.smemGate o amt with
      | .error e => .error e
      | .ok () =>
        match k.applyBranch o (k.real_axis o) amt with
        | .error e => .error e
        | .ok k1 => .ok (k1.applyTail o append_opt (k.real_axis o))

/-- Method `_create_tc_opts` (kernel.py lines 243-271).  The uncaught
`bufs.index` lookup of a LOAD source degrades to no-match in the model. -/
def Kernel.createTcOpts (k : Kernel) (reduceop : UOp) (tc : TensorCore) (axis : Nat)
    (opt_level : Int) : Option TensorCoreOptions :=
  let has_cast := tc.dtype_in != tc.dtype_out
  if has_cast && !((reduceop.srcN 0).op == .CAST && (reduceop.srcN 0).dtype == tc.dtype_out) then
    none
  else
    let mul_op := if has_cast then (reduceop.srcN 0).srcN 0 else reduceop.srcN 0
    if !(mul_op.op == .MUL) then none
    else
      let buf_index := fun (src : UOp) =>
        if src.op == .LOAD && src.dtype == tc.dtype_in then k.bufs.indexOf? src
        else if decide (1 ≤ opt_level) && src.op == .CAST && src.dtype == tc.dtype_in then
          k.bufs.indexOf? (src.srcN 0)
        else none
      match buf_index (mul_op.srcN 0), buf_index (mul_op.srcN 1) with
      | some buf0, some buf1 =>
        let buf0_strides := (k.sts.getD buf0 stNil).strides
        let buf1_strides := (k.sts.getD buf1 stNil).strides
        let axis_buf0 := (buf0_strides.take k.first_reduce).enum.filterMap (fun p =>
          if p.2 == some (SInt.i 0) then
            some (p.1, pyGet k.full_shape (p.1 : Int) (.i 1), buf1_strides.getD p.1 none)
          else none)
        let axis_buf1 := (buf1_strides.take k.first_reduce).enum.filterMap (fun p =>
          if p.2 == some (SInt.i 0) then
            some (p.1, pyGet k.full_shape (p.1 : Int) (.i 1), buf0_strides.getD p.1 none)
          else none)
        if !(!axis_buf0.isEmpty && !axis_buf1.isEmpty &&
             (((k.shape_len : Int) - (k.first_reduce : Int) == 1) || decide (1 ≤ opt_level))) then
          none
        else
          let axis_choices := axis_buf0.flatMap (fun a0 => axis_buf1.flatMap (fun a1 =>
            (List.range (k.shape_len - k.first_reduce)).map (fun j => (a0, a1, k.first_reduce + j))))
          if !(axis < axis_choices.length) then none
          else
            let chosen := axis_choices.getD (axis_choices.length - (axis + 1))
              ((0, SInt.i 1, none), (0, SInt.i 1, none), 0)
            let s0 := chosen.1.1
            let s1 := chosen.2.1.1
            let s2 := chosen.2.2
            let axis_pads := [(s0, 0), (s1, 1), (s2, 2)].filterMap (fun p =>
              if (pyGet k.full_shape ((p.1 : Nat) : Int) (.i 1)).modNeq (tc.dims.getD p.2 1) then
                some (p.1, tc.dims.getD p.2 1)
              else none)
            if !axis_pads.isEmpty && decide (opt_level < 2) then none
            else some ⟨[s0, s1, s2], [true, true], axis_pads⟩
      | _, _ => none

/-- The PADTO attempts of `_apply_tc_opt` (kernel.py line 285), applied with
`append_opt=False`; a failure keeps the partially mutated state. -/
def tcPadsFold : List (Nat × Nat) → Kernel → KRes
  | [], k => .ok k
  | (ax, dim) :: rest, k =>
    match k.applyOptCore ⟨.PADTO, some (ax : Int), .int (dim : Int)⟩ false with
    | .ok k1 => tcPadsFold rest k1
    | .error e => .error e

/-- The K-axis UNROLLs of `_apply_tc_opt` (kernel.py line 288): each
iteration re-reads `tensor_core_opts` (the Python local aliases the mutable
record that `fix_axes` updates) and the current `first_reduce`. -/
def tcUnrollFold : List (Nat × Nat) → Kernel → KRes
  | [], k => .ok k
  | (_, amt) :: rest, k =>
    match k.applyOptCore ⟨.UNROLL,
        some ((((k.tensor_core_opts.getD tcoNil).axes.getD 2 0 : Nat) : Int) -
          (k.first_reduce : Int)),
        .int (amt : Int)⟩ false with
    | .ok k1 => tcUnrollFold rest k1
    | .error e => .error e

/-- The canonical `tc.opts` program of `_apply_tc_opt` (kernel.py line 289):
amount-2 UPCAST/LOCAL on the stored N/M axes. -/
def tcOptsFold : List (Char × Nat) → Kernel → KRes
  | [], k => .ok k
  | (c, which) :: rest, k =>
    match k.applyOptCore ⟨(if c = 'u' then OptOps.UPCAST else OptOps.LOCAL),
        some (((k.tensor_core_opts.getD tcoNil).axes.getD which 0 : Nat) : Int), .int 2⟩ false with
    | .ok k1 => tcOptsFold rest k1
    | .error e => .error e

/-- The `for tc in tensor_cores` loop of `_apply_tc_opt` (kernel.py lines
276-292).  A `KernelOptError` from the PADTO attempts is caught and the
loop continues on the mutated state; the in-loop `assert all_same` becomes
an uncatchable assert error; failures from UNROLL/UPCAST/LOCAL propagate. -/
def Kernel.tcLoop (k : Kernel) (axis : Nat) (opt_level : Int) (utc : Int) :
    List TensorCore → Except (Kernel × KErr) (Bool × Kernel)
  | [] => .ok (false, k)
  | tc :: rest =>
    if !(allSame (k.reduceops.map (fun r => k.createTcOpts r tc axis opt_level))) then
      .error (k, .assertError)
    else
      match (k.reduceops.map (fun r => k.createTcOpts r tc axis opt_level)).getD 0 none with
      | none => k.tcLoop axis opt_level utc rest
      | some tcOpts =>
        match tcPadsFold tcOpts.axis_pads { k with tensor_core_opts := some tcOpts } with
        | .error (ke, .kernelOptError _) => ke.tcLoop axis opt_level utc rest
        | .error (ke, .assertError) => .error (ke, .assertError)
        | .ok k2 =>
          match tcUnrollFold tc.get_reduce_axes k2 with
          | .error e => .error e
          | .ok k3 =>
            match tcOptsFold tc.opts k3 with
            | .error e => .error e
            | .ok k4 => .ok (true, { k4 with tensor_core := some tc, use_tensor_cores := utc })

/-- Method `_apply_tc_opt` (kernel.py lines 273-293). -/
def Kernel.applyTcOpt (k : Kernel) (utc : Int) (axis : Nat) (tc_select tc_opt : Int) :
    Except (Kernel × KErr) (Bool × Kernel) :=
  match k.reduceops.head? with
  | some r =>
    if !(utc == 0) && r.reduceKind == .ADD then
      let tcs := if tc_select == -1 then k.opts.tensor_cores
        else [k.opts.tensor_cores.getD tc_select.toNat tcNil]
      k.tcLoop axis tc_opt utc tcs
    else .ok (false, k)
  | none => .ok (false, k)

/-- Method `apply_opt` (kernel.py lines 342-431): the TC path validates its
own preconditions, dispatches to `_apply_tc_opt` and returns early (line
354); every other opt kind is handled by `applyOptCore`. -/
def Kernel.apply_opt (k : Kernel) (o : Opt) (append_opt : Bool) : KRes :=
  if o.op == .TC then
    if k.dont_use_locals && (o.op == .LOCAL || o.op == .GROUP || o.op == .GROUPTOP) then
      .error (k, .kernelOptError "not using locals")
    else if !k.applied_opts.isEmpty then
      .error (k, .kernelOptError "tensor core opts must be first")
    else
      if !(k.use_tc_env == 2 || decide (0 < k.opts.tensor_cores.length)) then
        .error (k, .kernelOptError "must have tensor cores or TC=2")
      else if o.axis.isNone then .error (k, .kernelOptError "tensor core opts must have an axis")
      else
        match o.arg with
        | .pair tc_select tc_opt =>
          if !(decide (-1 ≤ tc_select) && decide (tc_select < (k.opts.tensor_cores.length : Int))) then
            .error (k, .kernelOptError "tensor core opts must have valid tc_select")
          else if !(decide (0 ≤ tc_opt) && decide (tc_opt ≤ 2)) then
            .error (k, .kernelOptError "tensor core opts must have valid tc_opt")
          else
            match k.applyTcOpt k.use_tc_env (o.axis.getD 0).toNat tc_select tc_opt with
            | .error e => .error e
            | .ok (b, k1) =>
              if b then .ok { k1 with applied_opts := k1.applied_opts ++ [o] }
              else .error (k1, .kernelOptError "no tensor core available")
        | _ => .error (k, .kernelOptError "tensor core opts must have tc_select and tc_opt")
  else k.applyOptCore o append_opt

/-- Sequential application of opts through `apply_opt` (each appended on
success), the external-planner calling pattern. -/
def Kernel.applyOpts (k : Kernel) : List Opt → KRes
  | [] => .ok k
  | o :: rest =>
    match k.apply_opt o true with
    | .ok k1 => k1.applyOpts rest
    | .error e => .error e

/-! ## Concrete example kernels used by witnesses and counterexamples -/

/-- Example renderer: locals and shared memory available, OpenCL-like. -/
def exRenderer : Renderer := ⟨true, true, 32768, "CL", []⟩

/-- Example STORE buffer node over a global pointer. -/
def exStore : UOp := .mk .STORE ⟨4, none⟩ [.mk .DEFINE_GLOBAL ⟨4, none⟩ [] .none] .none

/-- Example LOAD buffer node over a global pointer. -/
def exLoad : UOp := .mk .LOAD ⟨4, none⟩ [.mk .DEFINE_GLOBAL ⟨4, none⟩ [] .none] .none

/-- Example ADD-reduce node over the LOAD, reducing axis 1. -/
def exReduce : UOp := .mk .REDUCE_AXIS ⟨4, none⟩ [exLoad] (.reduceArg .ADD [1])

/-- Tracker with concrete shape and strides. -/
def stI (sh : List Int) (str : List Int) : ShapeTracker :=
  ⟨sh.map SInt.i, str.map (fun s => some (SInt.i s))⟩

/-- Example reduce kernel: output (16,1), full shape (16,32). -/
def exKR : Kernel := ⟨exRenderer, [exReduce], [exStore, exLoad], [], 1,
  [stI [16, 1] [1, 0], stI [16, 32] [32, 1], stI [16, 1] [1, 0], stI [16, 32] [32, 1]],
  [], 0, 0, 0, none, none, 0, false, 0⟩

/-- Example no-reduce kernel with shape (4,). -/
def exKA : Kernel :=
  ⟨exRenderer, [], [exStore], [], 0, [stI [4] [1]], [], 0, 0, 0, none, none, 0, false, 0⟩

/-- Example kernel whose two trackers have axis sizes 5 and 3 (PADTO). -/
def exKP : Kernel :=
  ⟨exRenderer, [], [exStore], [], 0, [stI [5] [1], stI [3] [1]], [], 0, 0, 0, none, none, 0,
    false, 0⟩

/-- Example kernel with two global axes (8,4) (SWAP). -/
def exKS : Kernel :=
  ⟨exRenderer, [], [exStore], [], 0, [stI [8, 4] [4, 1]], [], 0, 0, 0, none, none, 0, false, 0⟩

/-- Example reduce kernel with a 16-byte shared-memory budget. -/
def exKRsmall : Kernel := { exKR with opts := ⟨true, true, 16, "CL", []⟩ }

/-! ## Helper lemmas -/

theorem ShapeTracker.reshape_shape (st : ShapeTracker) (ns : List SInt) :
    (st.reshape ns).shape = ns := by
  by_cases h : ns = st.shape <;> simp [ShapeTracker.reshape, h]

theorem ShapeTracker.reshape_self (st : ShapeTracker) : st.reshape st.shape = st := by
  simp [ShapeTracker.reshape]

theorem maskFilter_map_self {α : Type} (p : α → Bool) :
    ∀ xs : List α, maskFilter (xs.map p) xs = xs.filter (fun x => !p x)
  | [] => by simp [maskFilter]
  | x :: xs => by
    by_cases h : p x <;> simp [maskFilter, h, maskFilter_map_self p xs]

theorem maskFilter_allFalse {α : Type} (ms : List Bool) (xs : List α)
    (h : ∀ b ∈ ms, b = false) : maskFilter ms xs = xs := by
  induction xs generalizing ms with
  | nil => cases ms <;> rfl
  | cons x xs ih =>
    cases ms with
    | nil => simp [maskFilter, ih [] (by simp)]
    | cons b ms =>
      have hb : b = false := h b (by simp)
      subst hb
      simp [maskFilter, ih ms (fun c hc => h c (by simp [hc]))]

theorem countTrue_allFalse (l : List Bool) (h : ∀ b ∈ l, b = false) : countTrue l = 0 := by
  unfold countTrue
  have hf : l.filter (fun b => b) = [] := by
    rw [List.filter_eq_nil_iff]
    intro b hb
    simp [h b hb]
  simp [hf]

theorem mem_of_pySlice {α : Type} {x : α} {xs : List α} {a b : Int}
    (h : x ∈ pySlice xs a b) : x ∈ xs := by
  unfold pySlice at h
  exact List.mem_of_mem_drop (List.mem_of_mem_take h)

theorem mem_of_pyDrop {α : Type} {x : α} {xs : List α} {a : Int}
    (h : x ∈ pyDrop xs a) : x ∈ xs := by
  unfold pyDrop at h
  exact List.mem_of_mem_drop h

/-! ## Claim C7: simplify_ones is idempotent -/

/-- A kernel whose `full_shape` has no size-1 axes is a fixed point of
`simplify_ones`, which then reports no removal. -/
theorem simplify_ones_noOnes (k : Kernel)
    (h : ∀ s ∈ k.full_shape, s.eqInt 1 = false) : k.simplify_ones = (k, false) := by
  unfold Kernel.simplify_ones
  by_cases h0 : k.shape_len = 0
  · simp [h0]
  · rw [if_neg h0]
    have hall : ∀ b ∈ k.full_shape.map (fun s => s.eqInt 1), b = false := by
      intro b hb
      obtain ⟨s, hs, he⟩ := List.mem_map.1 hb
      exact he ▸ h s hs
    have hc1 : countTrue (pySlice (k.full_shape.map (fun s => s.eqInt 1))
        ((k.first_reduce : Int) - k.local_dims) (k.first_reduce : Int)) = 0 :=
      countTrue_allFalse _ (fun b hb => hall b (mem_of_pySlice hb))
    have hc2 : countTrue (pyDrop (k.full_shape.map (fun s => s.eqInt 1)) k.first_upcast) = 0 :=
      countTrue_allFalse _ (fun b hb => hall b (mem_of_pyDrop hb))
    have hany : (k.full_shape.map (fun s => s.eqInt 1)).any (fun b => b) = false := by
      rw [List.any_eq_false]
      intro b hb
      simp [hall b hb]
    have hmap : k.sts.map (fun st =>
        st.reshape (maskFilter (k.full_shape.map (fun s => s.eqInt 1)) st.shape)) = k.sts := by
      rw [List.map_congr_left (fun st _ => by
        rw [maskFilter_allFalse _ _ hall, ShapeTracker.reshape_self])]
      exact List.map_id _
    simp only [hc1, hc2, sub_zero, hany, Kernel.reshape_and_permute, hmap]

/-- Claim C7: for every kernel state, `simplify_ones` is idempotent:
running it a second time returns the state unchanged and reports `false`
(no axis with a `full_shape` entry of 1 remains after the first run). -/
theorem simplify_ones_idempotent (k : Kernel) :
    (k.simplify_ones.1).simplify_ones = (k.simplify_ones.1, false) := by
  by_cases h0 : k.shape_len = 0
  · have h1 : k.simplify_ones = (k, false) := by
      unfold Kernel.simplify_ones
      simp [h0]
    rw [h1]
    exact h1
  · apply simplify_ones_noOnes
    intro s hs
    -- the first run filtered every axis whose `full_shape` entry is 1
    unfold Kernel.simplify_ones at hs
    rw [if_neg h0] at hs
    simp only [Kernel.reshape_and_permute, Kernel.full_shape] at hs
    rcases lt_or_ge k.full_buf_index k.sts.length with hlt | hge
    · rw [List.getD_eq_getElem?_getD, List.getElem?_map,
        List.getElem?_eq_getElem hlt] at hs
      simp only [Option.map_some', Option.getD_some] at hs
      rw [ShapeTracker.reshape_shape] at hs
      have hfull : (k.sts.getD k.full_buf_index stNil).shape = (k.sts[k.full_buf_index]).shape := by
        simp [List.getD_eq_getElem?_getD, List.getElem?_eq_getElem hlt]
      rw [hfull, maskFilter_map_self] at hs
      have hmem := List.of_mem_filter hs
      simpa using hmem
    · rw [List.getD_eq_default _ _ (by simpa using hge)] at hs
      simp [stNil] at hs

/-! ## Claim C10: amounts resolving to 1 or symbolic are rejected unchanged -/

/-- Claim C10: for UPCAST, UNROLL, LOCAL, GROUP, GROUPTOP or PADTO, an
effective amount that resolves to 1 (arg 1, or arg 0 on an axis of size 1)
or to a symbolic value makes `apply_opt` raise `KernelOptError` with the
kernel state untouched. -/
theorem applyOpt_amt_one_or_symbolic_rejected (k : Kernel) (o : Opt)
    (hop : o.op = .UPCAST ∨ o.op = .UNROLL ∨ o.op = .LOCAL ∨ o.op = .GROUP ∨
           o.op = .GROUPTOP ∨ o.op = .PADTO)
    (hamt : o.arg = .int 1 ∨ (o.arg = .int 0 ∧ pyGet k.full_shape (k.real_axis o) (.i 1) = .i 1) ∨
            (∃ v, o.arg = .int 0 ∧ pyGet k.full_shape (k.real_axis o) (.i 1) = .sym v)) :
    ∃ msg, k.apply_opt o true = .error (k, .kernelOptError msg) := by
  have hTC : (o.op == OptOps.TC) = false := by
    rcases hop with h | h | h | h | h | h <;> simp [h]
  have hSWAP : (o.op == OptOps.SWAP) = false := by
    rcases hop with h | h | h | h | h | h <;> simp [h]
  rw [Kernel.apply_opt, hTC]
  simp only [Bool.false_eq_true, if_false]
  unfold Kernel.applyOptCore
  by_cases hg : (k.dont_use_locals &&
      (o.op == OptOps.LOCAL || o.op == OptOps.GROUP || o.op == OptOps.GROUPTOP)) = true
  · exact ⟨"not using locals", by rw [if_pos hg]⟩
  · rw [if_neg hg]
    by_cases hax : (!decide (k.real_axis o < (k.full_shape.length : Int))) = true
    · exact ⟨"invalid axis", by rw [if_pos hax]⟩
    · rw [if_neg hax]
      have hka : ∃ msg, k.kernelAmt o (k.real_axis o) =
          .error (k, .kernelOptError msg) := by
        unfold Kernel.kernelAmt
        rw [hSWAP]
        simp only [Bool.false_eq_true, if_false]
        rcases hamt with h1 | ⟨h0, hsh⟩ | ⟨v, h0, hsh⟩
        · rw [h1]
          exact ⟨"shift/padto of amt=" ++ (SInt.i 1).str ++
            ", 1 or symbolic amount is meaningless",
            by norm_num [Kernel.amtOf, SInt.isInt, SInt.eqInt]⟩
        · rw [h0]
          have ha : k.amtOf 0 (k.real_axis o) = .i 1 := by
            rw [Kernel.amtOf, if_pos rfl, hsh]
          simp only [ha]
          exact ⟨"shift/padto of amt=" ++ (SInt.i 1).str ++
            ", 1 or symbolic amount is meaningless", by norm_num [SInt.isInt, SInt.eqInt]⟩
        · rw [h0]
          have ha : k.amtOf 0 (k.real_axis o) = .sym v := by
            rw [Kernel.amtOf, if_pos rfl, hsh]
          simp only [ha]
          exact ⟨"shift/padto of amt=" ++ (SInt.sym v).str ++
            ", 1 or symbolic amount is meaningless", by norm_num [SInt.isInt, SInt.eqInt]⟩
      obtain ⟨msg, hmsg⟩ := hka
      exact ⟨msg, by rw [hmsg]⟩

/-! ## Claim C9: a zero arg means the whole axis -/

theorem smemGate_arg_irrel (k : Kernel) (op : OptOps) (oax : Option Int) (a1 a2 : OptArg)
    (amt : SInt) : k.smemGate ⟨op, oax, a1⟩ amt = k.smemGate ⟨op, oax, a2⟩ amt := rfl

theorem applyBranch_arg_irrel (k : Kernel) (op : OptOps) (oax : Option Int) (a1 a2 : OptArg)
    (axis : Int) (amt : SInt) :
    k.applyBranch ⟨op, oax, a1⟩ axis amt = k.applyBranch ⟨op, oax, a2⟩ axis amt := rfl

theorem real_axis_arg_irrel (k : Kernel) (op : OptOps) (oax : Option Int) (a1 a2 : OptArg) :
    k.real_axis ⟨op, oax, a1⟩ = k.real_axis ⟨op, oax, a2⟩ := rfl

theorem kernelAmt_zero_eq (k : Kernel) (op : OptOps) (oax : Option Int) (n : Int) (axis : Int)
    (hswap : (op == OptOps.SWAP) = false)
    (hn : pyGet k.full_shape axis (.i 1) = .i n) (hpos : 1 ≤ n) :
    k.kernelAmt ⟨op, oax, .int 0⟩ axis = k.kernelAmt ⟨op, oax, .int n⟩ axis := by
  have hamt : k.amtOf 0 axis = k.amtOf n axis := by
    unfold Kernel.amtOf
    rw [if_pos rfl, if_neg (show ¬(n = 0) from by omega), hn]
  unfold Kernel.kernelAmt
  simp only [hswap, Bool.false_eq_true, if_false, hamt, hn]

theorem simplify_ones_setApplied (k : Kernel) (l : List Opt) :
    (({ k with applied_opts := l } : Kernel)).simplify_ones =
      ({ k.simplify_ones.1 with applied_opts := l }, k.simplify_ones.2) := by
  unfold Kernel.simplify_ones
  by_cases h : k.shape_len = 0
  · have h' : ({ k with applied_opts := l } : Kernel).shape_len = k.shape_len := rfl
    rw [if_pos (h' ▸ h), if_pos h]
  · have h' : ¬(({ k with applied_opts := l } : Kernel).shape_len = 0) := h
    rw [if_neg h', if_neg h]
    rfl

theorem simplify_ones_fst_applied_opts (k : Kernel) :
    (k.simplify_ones.1).applied_opts = k.applied_opts := by
  unfold Kernel.simplify_ones
  by_cases h : k.shape_len = 0
  · rw [if_pos h]
  · rw [if_neg h]
    rfl

theorem applyTail_applied_false (k1 : Kernel) (o : Opt) (axis : Int) :
    (k1.applyTail o false axis).applied_opts = k1.applied_opts := by
  unfold Kernel.applyTail
  simp only [Bool.false_eq_true, if_false]
  by_cases h2 : k1.simplify_ones.2 = true
  · rw [if_pos h2]
    cases htco : k1.simplify_ones.1.tensor_core_opts <;>
      simp [htco, simplify_ones_fst_applied_opts k1]
  · rw [if_neg h2]
    exact simplify_ones_fst_applied_opts k1

theorem applyTail_true (k1 : Kernel) (o : Opt) (axis : Int) :
    k1.applyTail o true axis =
      { k1.applyTail o false axis with applied_opts := k1.applied_opts ++ [o] } := by
  unfold Kernel.applyTail
  simp only [if_true, Bool.false_eq_true, if_false, simplify_ones_setApplied]
  by_cases h2 : k1.simplify_ones.2 = true
  · rw [if_pos h2, if_pos h2]
    cases htco : k1.simplify_ones.1.tensor_core_opts <;> simp [htco]
  · rw [if_neg h2, if_neg h2]

/-- Appending the applied opt is the only difference between an appending
and a non-appending run of the non-TC `apply_opt` body. -/
theorem applyOptCore_true_eq (k : Kernel) (o : Opt) :
    k.applyOptCore o true =
      match k.applyOptCore o false with
      | .error e => .error e
      | .ok k1 => .ok ({ k1 with applied_opts := k1.applied_opts ++ [o] } : Kernel) := by
  unfold Kernel.applyOptCore
  split
  · rfl
  · split
    · rfl
    · split
      · rfl
      · split
        · rfl
        · split
          · rfl
          · rw [applyTail_true, applyTail_applied_false]

theorem applyOptCore_error_iff (k : Kernel) (o : Opt) (e : Kernel × KErr) :
    k.applyOptCore o true = .error e ↔ k.applyOptCore o false = .error e := by
  rw [applyOptCore_true_eq]
  cases h : k.applyOptCore o false <;> simp

theorem applyOptCore_ok_of_false (k : Kernel) (o : Opt) (k1 : Kernel)
    (h : k.applyOptCore o false = .ok k1) :
    k.applyOptCore o true = .ok ({ k1 with applied_opts := k1.applied_opts ++ [o] } : Kernel) := by
  rw [applyOptCore_true_eq, h]

/-- Claim C9: for UPCAST, UNROLL, LOCAL, GROUP, GROUPTOP or PADTO with arg
0, `apply_opt` behaves exactly as with the whole size `full_shape[real_axis]`
as the amount: the non-appending runs are equal, failing appending runs are
equal, and successful appending runs agree except that the opt recorded in
`applied_opts` keeps its original arg. -/
theorem applyOpt_zero_arg_full_amount (k : Kernel) (op : OptOps) (oax : Option Int) (n : Int)
    (hop : op = .UPCAST ∨ op = .UNROLL ∨ op = .LOCAL ∨ op = .GROUP ∨
           op = .GROUPTOP ∨ op = .PADTO)
    (hn : pyGet k.full_shape (k.real_axis ⟨op, oax, .int 0⟩) (.i 1) = .i n) (hpos : 1 ≤ n) :
    k.apply_opt ⟨op, oax, .int 0⟩ false = k.apply_opt ⟨op, oax, .int n⟩ false ∧
    (∀ e, k.apply_opt ⟨op, oax, .int 0⟩ true = .error e ↔
          k.apply_opt ⟨op, oax, .int n⟩ true = .error e) ∧
    (∀ k1, k.apply_opt ⟨op, oax, .int n⟩ true = .ok k1 →
      k.apply_opt ⟨op, oax, .int 0⟩ true =
        .ok { k1 with applied_opts := k1.applied_opts.dropLast ++ [⟨op, oax, .int 0⟩] }) := by
  have hTC : (op == OptOps.TC) = false := by
    rcases hop with h | h | h | h | h | h <;> simp [h]
  have hSWAP : (op == OptOps.SWAP) = false := by
    rcases hop with h | h | h | h | h | h <;> simp [h]
  have hcoreF : k.applyOptCore ⟨op, oax, .int 0⟩ false = k.applyOptCore ⟨op, oax, .int n⟩ false := by
    unfold Kernel.applyOptCore
    rw [kernelAmt_zero_eq k op oax n _ hSWAP hn hpos]
    rfl
  have hzero : ∀ ap, k.apply_opt ⟨op, oax, .int 0⟩ ap = k.applyOptCore ⟨op, oax, .int 0⟩ ap := by
    intro ap
    rw [Kernel.apply_opt]
    simp only [hTC, Bool.false_eq_true, if_false]
  have hfull : ∀ ap, k.apply_opt ⟨op, oax, .int n⟩ ap = k.applyOptCore ⟨op, oax, .int n⟩ ap := by
    intro ap
    rw [Kernel.apply_opt]
    simp only [hTC, Bool.false_eq_true, if_false]
  refine ⟨by rw [hzero false, hfull false, hcoreF],
    fun e => by
      rw [hzero true, hfull true, applyOptCore_error_iff, applyOptCore_error_iff, hcoreF],
    fun k1 h => ?_⟩
  rw [hfull true] at h
  rw [hzero true]
  -- recover the non-appending result and re-append the zero-arg opt
  cases hres : k.applyOptCore ⟨op, oax, .int n⟩ false with
  | error e0 =>
    rw [applyOptCore_true_eq, hres] at h
    exact absurd h (by simp)
  | ok k1f =>
    rw [applyOptCore_true_eq, hres] at h
    simp only [Except.ok.injEq] at h
    subst h
    have h0res : k.applyOptCore ⟨op, oax, .int 0⟩ false = .ok k1f := by
      rw [hcoreF]
      exact hres
    rw [applyOptCore_ok_of_false k ⟨op, oax, .int 0⟩ k1f h0res]
    congr 2
    simp

/-- Witness for C10 at a concrete input: UNROLL with arg 1 on the example
reduce kernel is rejected with the state unchanged. -/
theorem applyOpt_amt_one_witness :
    ∃ msg, exKR.apply_opt ⟨OptOps.UNROLL, some 0, .int 1⟩ true =
      .error (exKR, .kernelOptError msg) :=
  applyOpt_amt_one_or_symbolic_rejected exKR ⟨OptOps.UNROLL, some 0, .int 1⟩
    (Or.inr (Or.inl rfl)) (Or.inl rfl)

/-- Witness for C9 at a concrete input: on the example reduce kernel the
reduce axis has size 32 and UNROLL with arg 0 behaves as UNROLL by 32. -/
theorem applyOpt_zero_arg_witness :
    pyGet exKR.full_shape (exKR.real_axis ⟨OptOps.UNROLL, some 0, .int 0⟩) (.i 1) = .i 32 ∧
    exKR.apply_opt ⟨OptOps.UNROLL, some 0, .int 0⟩ false =
      exKR.apply_opt ⟨OptOps.UNROLL, some 0, .int 32⟩ false :=
  ⟨by decide,
    (applyOpt_zero_arg_full_amount exKR .UNROLL (some 0) 32 (Or.inr (Or.inl rfl))
      (by decide) (by norm_num)).1⟩

/-! ## Field-preservation infrastructure -/

theorem pySlice_self {α : Type} (xs : List α) (a : Int) : pySlice xs a a = [] := by
  simp [pySlice]

theorem simplify_ones_fst_decomp (k : Kernel) :
    ∃ st ld up, k.simplify_ones.1 =
      { k with sts := st, local_dims := ld, upcasted := up } := by
  unfold Kernel.simplify_ones
  by_cases h : k.shape_len = 0
  · simp only [if_pos h]
    exact ⟨k.sts, k.local_dims, k.upcasted, rfl⟩
  · simp only [if_neg h]
    exact ⟨_, _, _, rfl⟩

theorem simplify_ones_local_zero (k : Kernel) (h : k.local_dims = 0) :
    (k.simplify_ones.1).local_dims = 0 := by
  unfold Kernel.simplify_ones
  by_cases h0 : k.shape_len = 0
  · rw [if_pos h0]
    exact h
  · rw [if_neg h0]
    show k.local_dims - countTrue (pySlice _ ((k.first_reduce : Int) - k.local_dims) _) = 0
    rw [h]
    simp [pySlice_self, countTrue]

theorem applyTail_decomp (k1 : Kernel) (o : Opt) (ap : Bool) (axis : Int) :
    ∃ st ld up ao tco, k1.applyTail o ap axis =
      { k1 with
        sts := st, local_dims := ld, upcasted := up, applied_opts := ao,
        tensor_core_opts := tco } := by
  have hk2 : ∃ ao2,
      (if ap then ({ k1 with applied_opts := k1.applied_opts ++ [o] } : Kernel) else k1) =
        { k1 with applied_opts := ao2 } := by
    cases ap
    · exact ⟨k1.applied_opts, rfl⟩
    · exact ⟨k1.applied_opts ++ [o], rfl⟩
  obtain ⟨ao2, hao⟩ := hk2
  unfold Kernel.applyTail
  rw [hao]
  obtain ⟨st, ld, up, hS⟩ := simplify_ones_fst_decomp ({ k1 with applied_opts := ao2 } : Kernel)
  by_cases h2 : (({ k1 with applied_opts := ao2 } : Kernel)).simplify_ones.2 = true
  · rw [if_pos h2, hS]
    cases htco : k1.tensor_core_opts with
    | some tco =>
      exact ⟨st, ld, up, ao2, some (tco.fix_axes axis), by simp [htco]⟩
    | none =>
      exact ⟨st, ld, up, ao2, none, by simp [htco]⟩
  · rw [if_neg h2, hS]
    exact ⟨st, ld, up, ao2, k1.tensor_core_opts, rfl⟩

theorem padtoFold_decomp (axis amtI : Int) :
    ∀ (l : List Nat) (k : Kernel) (p : Bool) (res : Kernel × Bool),
      padtoFold axis amtI l k p = .ok res → ∃ st, res.1 = { k with sts := st }
  | [], k, p, res, h => by
    cases h
    exact ⟨k.sts, rfl⟩
  | i :: rest, k, p, res, h => by
    unfold padtoFold at h
    split at h
    · obtain ⟨st, hst⟩ := padtoFold_decomp axis amtI rest k p res h
      exact ⟨st, hst⟩
    · split at h
      · cases h
      · split at h
        · obtain ⟨st, hst⟩ := padtoFold_decomp axis amtI rest _ true res h
          exact ⟨st, hst⟩
        · obtain ⟨st, hst⟩ := padtoFold_decomp axis amtI rest k p res h
          exact ⟨st, hst⟩

theorem reshape_and_permute_decomp (k : Kernel) (f : Option (List SInt → List SInt))
    (p : Option (List Nat)) : ∃ st, k.reshape_and_permute f p = { k with sts := st } :=
  ⟨_, rfl⟩

theorem shift_to_decomp (k : Kernel) (a : Nat) (amt : Int) (top : Bool) (ib : Option Int) :
    ∃ st, k.shift_to a amt top ib = { k with sts := st } :=
  ⟨_, rfl⟩

theorem unrollAdjusts_decomp (k : Kernel) (axis : Int) (amt : SInt) :
    ∃ ld g, (k.unrollAdjust1 axis amt).unrollAdjust2 axis amt =
      { k with local_dims := ld, group_for_reduces := g } := by
  unfold Kernel.unrollAdjust1 Kernel.unrollAdjust2
  split
  · split
    · exact ⟨k.local_dims + 1, k.group_for_reduces - 1, rfl⟩
    · exact ⟨k.local_dims + 1, k.group_for_reduces, rfl⟩
  · split
    · exact ⟨k.local_dims, k.group_for_reduces - 1, rfl⟩
    · exact ⟨k.local_dims, k.group_for_reduces, rfl⟩

theorem upcast_ok (k k1 : Kernel) (h : k.upcast = .ok k1) :
    k1 = { k with upcasted := k.upcasted + 1 } := by
  unfold Kernel.upcast at h
  split at h
  · cases h
  · cases h
    rfl

/-- Every successful non-TC branch changes only `sts` and the axis
counters (and, for NOLOCALS, sets `dont_use_locals`); in particular it
never touches `tensor_core`, `tensor_core_opts`, `applied_opts` or the
fixed construction data, and never clears `dont_use_locals`. -/
theorem applyBranch_ok_fields (k : Kernel) (o : Opt) (axis : Int) (amt : SInt) (k1 : Kernel)
    (h : k.applyBranch o axis amt = .ok k1) :
    k1.opts = k.opts ∧ k1.reduceops = k.reduceops ∧ k1.bufs = k.bufs ∧ k1.vars = k.vars ∧
    k1.full_buf_index = k.full_buf_index ∧ k1.applied_opts = k.applied_opts ∧
    k1.tensor_core = k.tensor_core ∧ k1.tensor_core_opts = k.tensor_core_opts ∧
    k1.use_tensor_cores = k.use_tensor_cores ∧ k1.use_tc_env = k.use_tc_env ∧
    (k.dont_use_locals = true → k1.dont_use_locals = true) := by
  obtain ⟨oop, oax2, oarg2⟩ := o
  cases oop <;> simp only [Kernel.applyBranch] at h
  case TC => cases h
  case LOCAL =>
    split at h
    · cases h
    · split at h
      · cases h
      · simp only [Except.ok.injEq] at h
        subst h
        exact ⟨rfl, rfl, rfl, rfl, rfl, rfl, rfl, rfl, rfl, rfl, fun hd => hd⟩
  case GROUP =>
    split at h
    · cases h
    · split at h
      · cases h
      · split at h
        · cases h
        · split at h
          · cases h
          · simp only [Except.ok.injEq] at h
            subst h
            exact ⟨rfl, rfl, rfl, rfl, rfl, rfl, rfl, rfl, rfl, rfl, fun hd => hd⟩
  case GROUPTOP =>
    split at h
    · cases h
    · split at h
      · cases h
      · split at h
        · cases h
        · split at h
          · cases h
          · simp only [Except.ok.injEq] at h
            subst h
            exact ⟨rfl, rfl, rfl, rfl, rfl, rfl, rfl, rfl, rfl, rfl, fun hd => hd⟩
  case UNROLL =>
    split at h
    · cases h
    · split at h
      · cases h
      · obtain ⟨ld, g, hadj⟩ := unrollAdjusts_decomp k axis amt
        rw [hadj] at h
        obtain ⟨st, hst⟩ := shift_to_decomp
          ({ k with local_dims := ld, group_for_reduces := g } : Kernel)
          axis.toNat amt.toInt false none
        rw [hst] at h
        rw [upcast_ok _ _ h]
        exact ⟨rfl, rfl, rfl, rfl, rfl, rfl, rfl, rfl, rfl, rfl, fun hd => hd⟩
  case UPCAST =>
    split at h
    · cases h
    · split at h
      · cases h
      · split at h
        · cases h
        · obtain ⟨st, hst⟩ := shift_to_decomp k axis.toNat amt.toInt false none
          rw [hst] at h
          rw [upcast_ok _ _ h]
          exact ⟨rfl, rfl, rfl, rfl, rfl, rfl, rfl, rfl, rfl, rfl, fun hd => hd⟩
  case NOLOCALS =>
    split at h
    · cases h
    · split at h
      · cases h
      · cases h
        exact ⟨rfl, rfl, rfl, rfl, rfl, rfl, rfl, rfl, rfl, rfl, fun _ => rfl⟩
  case SWAP =>
    split at h
    · cases h
    · cases h
      exact ⟨rfl, rfl, rfl, rfl, rfl, rfl, rfl, rfl, rfl, rfl, fun hd => hd⟩
  case PADTO =>
    split at h
    · cases h
    · split at h
      · cases h
      · split at h
        · cases h
        · split at h
          · cases h
          · rename_i k1p padded hfold
            split at h
            · cases h
              obtain ⟨st, hst⟩ := padtoFold_decomp axis amt.toInt
                (List.range k.sts.length) k false (k1, padded) hfold
              have hk1 : k1 = { k with sts := st } := hst
              rw [hk1]
              exact ⟨rfl, rfl, rfl, rfl, rfl, rfl, rfl, rfl, rfl, rfl, fun hd => hd⟩
            · cases h

theorem applyTail_applied_true (k1 : Kernel) (o : Opt) (axis : Int) :
    (k1.applyTail o true axis).applied_opts = k1.applied_opts ++ [o] := by
  rw [applyTail_true]

/-- Fields preserved by a successful non-TC `apply_opt` body: everything
except `sts`, the axis counters, `tensor_core_opts` and the appended
`applied_opts`. -/
theorem applyOptCore_ok_fields (k : Kernel) (o : Opt) (ap : Bool) (k1 : Kernel)
    (h : k.applyOptCore o ap = .ok k1) :
    k1.opts = k.opts ∧ k1.reduceops = k.reduceops ∧ k1.bufs = k.bufs ∧ k1.vars = k.vars ∧
    k1.full_buf_index = k.full_buf_index ∧ k1.tensor_core = k.tensor_core ∧
    k1.use_tensor_cores = k.use_tensor_cores ∧ k1.use_tc_env = k.use_tc_env ∧
    (k.dont_use_locals = true → k1.dont_use_locals = true) ∧
    k1.applied_opts = (if ap then k.applied_opts ++ [o] else k.applied_opts) := by
  unfold Kernel.applyOptCore at h
  split at h
  · cases h
  · split at h
    · cases h
    · split at h
      · cases h
      · split at h
        · cases h
        · split at h
          · cases h
          · rename_i kb hbr
            cases h
            obtain ⟨f1, f2, f3, f4, f5, f6, f7, f8, f9, f10, f11⟩ :=
              applyBranch_ok_fields k o (k.real_axis o) _ kb hbr
            obtain ⟨st, ld, up, ao, tco, hT⟩ := applyTail_decomp kb o ap (k.real_axis o)
            have happ : (kb.applyTail o ap (k.real_axis o)).applied_opts =
                (if ap then k.applied_opts ++ [o] else k.applied_opts) := by
              cases ap
              · rw [applyTail_applied_false, f6]
                rfl
              · rw [applyTail_applied_true, f6]
                rfl
            refine ⟨?_, ?_, ?_, ?_, ?_, ?_, ?_, ?_, ?_, happ⟩
            · rw [hT]; exact f1
            · rw [hT]; exact f2
            · rw [hT]; exact f3
            · rw [hT]; exact f4
            · rw [hT]; exact f5
            · rw [hT]; exact f7
            · rw [hT]; exact f9
            · rw [hT]; exact f10
            · rw [hT]; exact f11

theorem kernelAmt_err_state (k : Kernel) (o : Opt) (axis : Int) (ke : Kernel) (e : KErr)
    (h : k.kernelAmt o axis = .error (ke, e)) : ke = k := by
  unfold Kernel.kernelAmt at h
  split at h
  · split at h <;> cases h
  · split at h
    · cases h
    · cases h
      rfl
    · split at h
      · cases h
        rfl
      · split at h
        · cases h
          rfl
        · cases h

theorem smemGate_err_state (k : Kernel) (o : Opt) (amt : SInt) (ke : Kernel) (e : KErr)
    (h : k.smemGate o amt = .error (ke, e)) : ke = k := by
  unfold Kernel.smemGate at h
  split at h
  · split at h
    · unfold checkK at h
      split at h
      · cases h
      · cases h
        rfl
    · cases h
  · cases h

theorem padtoFold_err_decomp (axis amtI : Int) :
    ∀ (l : List Nat) (k : Kernel) (p : Bool) (ke : Kernel) (e : KErr),
      padtoFold axis amtI l k p = .error (ke, e) → ∃ st, ke = { k with sts := st }
  | [], k, p, ke, e, h => by cases h
  | i :: rest, k, p, ke, e, h => by
    unfold padtoFold at h
    split at h
    · exact padtoFold_err_decomp axis amtI rest k p ke e h
    · split at h
      · cases h
        exact ⟨k.sts, rfl⟩
      · split at h
        · obtain ⟨st, hst⟩ := padtoFold_err_decomp axis amtI rest _ true ke e h
          exact ⟨st, hst⟩
        · exact padtoFold_err_decomp axis amtI rest k p ke e h

/-- Error states raised by the non-TC branches keep `applied_opts` (the
append happens only after a branch succeeds). -/
theorem applyBranch_err_applied (k : Kernel) (o : Opt) (axis : Int) (amt : SInt)
    (ke : Kernel) (e : KErr) (h : k.applyBranch o axis amt = .error (ke, e)) :
    ke.applied_opts = k.applied_opts := by
  obtain ⟨oop, oax2, oarg2⟩ := o
  cases oop <;> simp only [Kernel.applyBranch] at h
  case TC =>
    cases h
    rfl
  case LOCAL =>
    split at h
    · cases h
      rfl
    · split at h
      · cases h
        rfl
      · cases h
  case GROUP =>
    split at h
    · cases h
      rfl
    · split at h
      · cases h
        rfl
      · split at h
        · cases h
          rfl
        · split at h
          · cases h
            rfl
          · cases h
  case GROUPTOP =>
    split at h
    · cases h
      rfl
    · split at h
      · cases h
        rfl
      · split at h
        · cases h
          rfl
        · split at h
          · cases h
            rfl
          · cases h
  case UNROLL =>
    split at h
    · cases h
      rfl
    · split at h
      · cases h
        rfl
      · obtain ⟨ld, g, hadj⟩ := unrollAdjusts_decomp k axis amt
        rw [hadj] at h
        obtain ⟨st, hst⟩ := shift_to_decomp
          ({ k with local_dims := ld, group_for_reduces := g } : Kernel)
          axis.toNat amt.toInt false none
        rw [hst] at h
        unfold Kernel.upcast at h
        split at h
        · cases h
          rfl
        · cases h
  case UPCAST =>
    split at h
    · cases h
      rfl
    · split at h
      · cases h
        rfl
      · split at h
        · cases h
          rfl
        · obtain ⟨st, hst⟩ := shift_to_decomp k axis.toNat amt.toInt false none
          rw [hst] at h
          unfold Kernel.upcast at h
          split at h
          · cases h
            rfl
          · cases h
  case NOLOCALS =>
    split at h
    · cases h
      rfl
    · split at h
      · cases h
        rfl
      · cases h
  case SWAP =>
    split at h
    · cases h
      rfl
    · cases h
  case PADTO =>
    split at h
    · cases h
      rfl
    · split at h
      · cases h
        rfl
      · split at h
        · rename_i hchk
          cases h
          unfold Kernel.padtoCheck at hchk
          split at hchk
          · split at hchk
            · unfold checkK at hchk
              split at hchk
              · cases hchk
              · cases hchk
                rfl
            · cases hchk
          · cases hchk
        · split at h
          · rename_i hfold
            cases h
            obtain ⟨st, hst⟩ := padtoFold_err_decomp axis amt.toInt
              (List.range k.sts.length) k false ke e hfold
            rw [hst]
          · rename_i k1p padded hfold
            split at h
            · cases h
            · cases h
              obtain ⟨st, hst⟩ := padtoFold_decomp axis amt.toInt
                (List.range k.sts.length) k false (ke, padded) hfold
              have hk1 : ke = { k with sts := st } := hst
              rw [hk1]

/-- Error states raised by the non-TC `apply_opt` body keep `applied_opts`. -/
theorem applyOptCore_err_applied (k : Kernel) (o : Opt) (ap : Bool) (ke : Kernel) (e : KErr)
    (h : k.applyOptCore o ap = .error (ke, e)) : ke.applied_opts = k.applied_opts := by
  unfold Kernel.applyOptCore at h
  split at h
  · cases h
    rfl
  · split at h
    · cases h
      rfl
    · split at h
      · rename_i hamt
        cases h
        rw [kernelAmt_err_state k o (k.real_axis o) ke e hamt]
      · split at h
        · rename_i hsm
          cases h
          rw [smemGate_err_state k o _ ke e hsm]
        · split at h
          · rename_i hbr
            cases h
            exact applyBranch_err_applied k o (k.real_axis o) _ ke e hbr
          · cases h

/-! ## NOLOCALS and the LOCAL gate (infrastructure for the locals claims) -/

theorem apply_opt_nonTC (k : Kernel) (o : Opt) (b : Bool) (h : (o.op == OptOps.TC) = false) :
    k.apply_opt o b = k.applyOptCore o b := by
  rw [Kernel.apply_opt]
  simp only [h, Bool.false_eq_true, if_false]

theorem apply_opt_tc_nonempty (k : Kernel) (o : Opt) (b : Bool) (hop : o.op = OptOps.TC)
    (hne : k.applied_opts ≠ []) :
    k.apply_opt o b = .error (k, .kernelOptError "tensor core opts must be first") := by
  have hie : k.applied_opts.isEmpty = false := by
    cases hl : k.applied_opts with
    | nil => exact absurd hl hne
    | cons a l => rfl
  rw [Kernel.apply_opt]
  simp [hop, hie]

theorem apply_opt_local_blocked (k : Kernel) (oax : Option Int) (oarg : OptArg) (b : Bool)
    (h : k.dont_use_locals = true) :
    k.apply_opt ⟨OptOps.LOCAL, oax, oarg⟩ b = .error (k, .kernelOptError "not using locals") := by
  rw [apply_opt_nonTC k ⟨OptOps.LOCAL, oax, oarg⟩ b rfl, Kernel.applyOptCore]
  simp [h]

theorem applyTail_dul (k1 : Kernel) (o : Opt) (ap : Bool) (axis : Int) :
    (k1.applyTail o ap axis).dont_use_locals = k1.dont_use_locals := by
  obtain ⟨st, ld, up, ao, tco, hT⟩ := applyTail_decomp k1 o ap axis
  rw [hT]

theorem applyTail_local_zero_false (k1 : Kernel) (o : Opt) (axis : Int)
    (h : k1.local_dims = 0) : (k1.applyTail o false axis).local_dims = 0 := by
  unfold Kernel.applyTail
  simp only [Bool.false_eq_true, if_false]
  by_cases h2 : k1.simplify_ones.2 = true
  · rw [if_pos h2]
    cases htco : k1.simplify_ones.1.tensor_core_opts <;>
      simp [htco, simplify_ones_local_zero k1 h]
  · rw [if_neg h2]
    exact simplify_ones_local_zero k1 h

theorem applyTail_local_zero (k1 : Kernel) (o : Opt) (ap : Bool) (axis : Int)
    (h : k1.local_dims = 0) : (k1.applyTail o ap axis).local_dims = 0 := by
  cases ap
  · exact applyTail_local_zero_false k1 o axis h
  · rw [applyTail_true]
    exact applyTail_local_zero_false k1 o axis h

theorem applyOptCore_nolocals_ok (k : Kernel) (oax : Option Int) (oarg : OptArg) (ap : Bool)
    (k1 : Kernel) (h : k.applyOptCore ⟨OptOps.NOLOCALS, oax, oarg⟩ ap = .ok k1) :
    k1.dont_use_locals = true ∧ k1.local_dims = 0 := by
  unfold Kernel.applyOptCore at h
  split at h
  · cases h
  · split at h
    · cases h
    · split at h
      · cases h
      · split at h
        · cases h
        · split at h
          · cases h
          · rename_i kb hbr
            simp only [Except.ok.injEq] at h
            subst h
            simp only [Kernel.applyBranch] at hbr
            split at hbr
            · cases hbr
            · rename_i hld
              split at hbr
              · cases hbr
              · rename_i hld2
                simp only [Except.ok.injEq] at hbr
                subst hbr
                simp only [Bool.not_eq_true', Bool.not_eq_false, Bool.and_eq_true,
                  beq_iff_eq] at hld2
                refine ⟨?_, ?_⟩
                · rw [applyTail_dul]
                · exact applyTail_local_zero _ _ _ _ hld2.1

theorem applyOpts_dul_persist : ∀ (ops : List Opt) (k k2 : Kernel),
    k.dont_use_locals = true → k.applied_opts ≠ [] →
    k.applyOpts ops = .ok k2 → k2.dont_use_locals = true ∧ k2.applied_opts ≠ []
  | [], k, k2, hd, ha, h => by
    cases h
    exact ⟨hd, ha⟩
  | o :: rest, k, k2, hd, ha, h => by
    rw [Kernel.applyOpts] at h
    split at h
    · rename_i k1 hstep
      by_cases htc : o.op = OptOps.TC
      · rw [apply_opt_tc_nonempty k o true htc ha] at hstep
        cases hstep
      · rw [apply_opt_nonTC k o true (by simp [htc])] at hstep
        obtain ⟨f1, f2, f3, f4, f5, f6, f7, f8, f9, f10⟩ :=
          applyOptCore_ok_fields k o true k1 hstep
        exact applyOpts_dul_persist rest k1 k2 (f9 hd) (by rw [f10]; simp) h
    · cases h

/-- Claim C5: a successful `apply_opt` of a NOLOCALS opt leaves
`dont_use_locals = true` and `local_dims = 0`, and after any further
sequence of successful opts every attempt to apply a LOCAL opt fails with
`KernelOptError` ("not using locals") raised before any mutation, so the
error state still has `dont_use_locals = true`. -/
theorem applyOpt_nolocals_blocks_local (k : Kernel) (oax : Option Int) (oarg : OptArg)
    (k1 : Kernel) (h : k.apply_opt ⟨OptOps.NOLOCALS, oax, oarg⟩ true = .ok k1) :
    k1.dont_use_locals = true ∧ k1.local_dims = 0 ∧
    ∀ ops k2, k1.applyOpts ops = .ok k2 →
      k2.dont_use_locals = true ∧
      ∀ ax a b, k2.apply_opt ⟨OptOps.LOCAL, ax, a⟩ b =
        .error (k2, .kernelOptError "not using locals") := by
  rw [apply_opt_nonTC k ⟨OptOps.NOLOCALS, oax, oarg⟩ true rfl] at h
  obtain ⟨hd, hl⟩ := applyOptCore_nolocals_ok k oax oarg true k1 h
  obtain ⟨f1, f2, f3, f4, f5, f6, f7, f8, f9, f10⟩ :=
    applyOptCore_ok_fields k ⟨OptOps.NOLOCALS, oax, oarg⟩ true k1 h
  have ha : k1.applied_opts ≠ [] := by
    rw [f10]
    simp
  refine ⟨hd, hl, fun ops k2 h2 => ?_⟩
  obtain ⟨hd2, _⟩ := applyOpts_dul_persist ops k1 k2 hd ha h2
  exact ⟨hd2, fun ax a b => apply_opt_local_blocked k2 ax a b hd2⟩

/-- Witness for C5 at a concrete input: NOLOCALS succeeds on the example
no-reduce kernel and the resulting state rejects every LOCAL opt with the
"not using locals" error. -/
theorem applyOpt_nolocals_witness :
    ∃ k1, exKA.apply_opt ⟨OptOps.NOLOCALS, none, OptArg.none⟩ true = .ok k1 ∧
      k1.dont_use_locals = true ∧ k1.local_dims = 0 ∧
      k1.apply_opt ⟨OptOps.LOCAL, some 0, .int 4⟩ true =
        .error (k1, .kernelOptError "not using locals") := by
  have hk1 : ∃ k1, exKA.apply_opt ⟨OptOps.NOLOCALS, none, OptArg.none⟩ true = .ok k1 :=
    ⟨_, rfl⟩
  obtain ⟨k1, h1⟩ := hk1
  obtain ⟨hd, hl, hrest⟩ := applyOpt_nolocals_blocks_local exKA none OptArg.none k1 h1
  exact ⟨k1, h1, hd, hl, (hrest [] k1 rfl).2 (some 0) (.int 4) true⟩

/-! ## TC-path preservation of `applied_opts` (infrastructure for C4) -/

theorem tcPadsFold_keeps : ∀ (l : List (Nat × Nat)) (k : Kernel) (res : KRes),
    tcPadsFold l k = res →
    (∀ k1, res = .ok k1 → k1.applied_opts = k.applied_opts) ∧
    (∀ ke e, res = .error (ke, e) → ke.applied_opts = k.applied_opts)
  | [], k, res, h => by
    subst h
    refine ⟨?_, ?_⟩
    · intro k1 h1
      cases h1
      rfl
    · intro ke e h1
      cases h1
  | p :: rest, k, res, h => by
    obtain ⟨ax, dim⟩ := p
    unfold tcPadsFold at h
    split at h
    · rename_i km hstep
      obtain ⟨_, _, _, _, _, _, _, _, _, hm⟩ := applyOptCore_ok_fields k _ false km hstep
      simp only [Bool.false_eq_true, if_false] at hm
      obtain ⟨h1, h2⟩ := tcPadsFold_keeps rest km res h
      refine ⟨?_, ?_⟩
      · intro k1 hh
        rw [h1 k1 hh, hm]
      · intro ke e hh
        rw [h2 ke e hh, hm]
    · rename_i e0 hstep
      subst h
      refine ⟨?_, ?_⟩
      · intro k1 hh
        cases hh
      · intro ke e hh
        simp only [Except.error.injEq] at hh
        subst hh
        exact applyOptCore_err_applied k _ false ke e hstep

theorem tcUnrollFold_keeps : ∀ (l : List (Nat × Nat)) (k : Kernel) (res : KRes),
    tcUnrollFold l k = res →
    (∀ k1, res = .ok k1 → k1.applied_opts = k.applied_opts) ∧
    (∀ ke e, res = .error (ke, e) → ke.applied_opts = k.applied_opts)
  | [], k, res, h => by
    subst h
    refine ⟨?_, ?_⟩
    · intro k1 h1
      cases h1
      rfl
    · intro ke e h1
      cases h1
  | p :: rest, k, res, h => by
    obtain ⟨ax, dim⟩ := p
    unfold tcUnrollFold at h
    split at h
    · rename_i km hstep
      obtain ⟨_, _, _, _, _, _, _, _, _, hm⟩ := applyOptCore_ok_fields k _ false km hstep
      simp only [Bool.false_eq_true, if_false] at hm
      obtain ⟨h1, h2⟩ := tcUnrollFold_keeps rest km res h
      refine ⟨?_, ?_⟩
      · intro k1 hh
        rw [h1 k1 hh, hm]
      · intro ke e hh
        rw [h2 ke e hh, hm]
    · rename_i e0 hstep
      subst h
      refine ⟨?_, ?_⟩
      · intro k1 hh
        cases hh
      · intro ke e hh
        simp only [Except.error.injEq] at hh
        subst hh
        exact applyOptCore_err_applied k _ false ke e hstep

theorem tcOptsFold_keeps : ∀ (l : List (Char × Nat)) (k : Kernel) (res : KRes),
    tcOptsFold l k = res →
    (∀ k1, res = .ok k1 → k1.applied_opts = k.applied_opts) ∧
    (∀ ke e, res = .error (ke, e) → ke.applied_opts = k.applied_opts)
  | [], k, res, h => by
    subst h
    refine ⟨?_, ?_⟩
    · intro k1 h1
      cases h1
      rfl
    · intro ke e h1
      cases h1
  | p :: rest, k, res, h => by
    obtain ⟨c, which⟩ := p
    unfold tcOptsFold at h
    split at h
    · rename_i km hstep
      obtain ⟨_, _, _, _, _, _, _, _, _, hm⟩ := applyOptCore_ok_fields k _ false km hstep
      simp only [Bool.false_eq_true, if_false] at hm
      obtain ⟨h1, h2⟩ := tcOptsFold_keeps rest km res h
      refine ⟨?_, ?_⟩
      · intro k1 hh
        rw [h1 k1 hh, hm]
      · intro ke e hh
        rw [h2 ke e hh, hm]
    · rename_i e0 hstep
      subst h
      refine ⟨?_, ?_⟩
      · intro k1 hh
        cases hh
      · intro ke e hh
        simp only [Except.error.injEq] at hh
        subst hh
        exact applyOptCore_err_applied k _ false ke e hstep

theorem tcLoop_keeps : ∀ (tcs : List TensorCore) (k : Kernel) (axis : Nat) (ol utc : Int)
    (res : Except (Kernel × KErr) (Bool × Kernel)), k.tcLoop axis ol utc tcs = res →
    (∀ b k4, res = .ok (b, k4) → k4.applied_opts = k.applied_opts) ∧
    (∀ ke e, res = .error (ke, e) → ke.applied_opts = k.applied_opts)
  | [], k, axis, ol, utc, res, h => by
    unfold Kernel.tcLoop at h
    subst h
    refine ⟨?_, ?_⟩
    · intro b k4 hh
      simp only [Except.ok.injEq, Prod.mk.injEq] at hh
      rw [← hh.2]
    · intro ke e hh
      cases hh
  | tc :: rest, k, axis, ol, utc, res, h => by
    unfold Kernel.tcLoop at h
    split at h
    · subst h
      refine ⟨?_, ?_⟩
      · intro b k4 hh
        cases hh
      · intro ke e hh
        simp only [Except.error.injEq, Prod.mk.injEq] at hh
        rw [← hh.1]
    · split at h
      · exact tcLoop_keeps rest k axis ol utc res h
      · rename_i tcOpts hget
        split at h
        · rename_i ke1 msg1 hpads
          obtain ⟨h1, h2⟩ := tcLoop_keeps rest ke1 axis ol utc res h
          have hk1 : ke1.applied_opts = k.applied_opts :=
            (tcPadsFold_keeps tcOpts.axis_pads { k with tensor_core_opts := some tcOpts }
              _ rfl).2 ke1 (.kernelOptError msg1) hpads
          refine ⟨?_, ?_⟩
          · intro b k4 hh
            rw [h1 b k4 hh, hk1]
          · intro ke e hh
            rw [h2 ke e hh, hk1]
        · rename_i ke1 hpads
          subst h
          refine ⟨?_, ?_⟩
          · intro b k4 hh
            cases hh
          · intro ke e hh
            simp only [Except.error.injEq, Prod.mk.injEq] at hh
            rw [← hh.1]
            exact (tcPadsFold_keeps tcOpts.axis_pads
              { k with tensor_core_opts := some tcOpts } _ rfl).2 ke1 .assertError hpads
        · rename_i k2 hpads
          have hk2 : k2.applied_opts = k.applied_opts :=
            (tcPadsFold_keeps tcOpts.axis_pads { k with tensor_core_opts := some tcOpts }
              _ rfl).1 k2 hpads
          split at h
          · rename_i ef hunroll
            subst h
            refine ⟨?_, ?_⟩
            · intro b k4 hh
              cases hh
            · intro ke e hh
              simp only [Except.error.injEq] at hh
              subst hh
              rw [(tcUnrollFold_keeps tc.get_reduce_axes k2 _ rfl).2 ke e hunroll, hk2]
          · rename_i k3 hunroll
            have hk3 : k3.applied_opts = k2.applied_opts :=
              (tcUnrollFold_keeps tc.get_reduce_axes k2 _ rfl).1 k3 hunroll
            split at h
            · rename_i ef hopts
              subst h
              refine ⟨?_, ?_⟩
              · intro b k4 hh
                cases hh
              · intro ke e hh
                simp only [Except.error.injEq] at hh
                subst hh
                rw [(tcOptsFold_keeps tc.opts k3 _ rfl).2 ke e hopts, hk3, hk2]
            · rename_i k4f hopts
              subst h
              refine ⟨?_, ?_⟩
              · intro b k4 hh
                simp only [Except.ok.injEq, Prod.mk.injEq] at hh
                rw [← hh.2]
                show k4f.applied_opts = k.applied_opts
                rw [(tcOptsFold_keeps tc.opts k3 _ rfl).1 k4f hopts, hk3, hk2]
              · intro ke e hh
                cases hh

theorem applyTcOpt_keeps (k : Kernel) (utc : Int) (axis : Nat) (ts to2 : Int)
    (res : Except (Kernel × KErr) (Bool × Kernel)) (h : k.applyTcOpt utc axis ts to2 = res) :
    (∀ b k4, res = .ok (b, k4) → k4.applied_opts = k.applied_opts) ∧
    (∀ ke e, res = .error (ke, e) → ke.applied_opts = k.applied_opts) := by
  unfold Kernel.applyTcOpt at h
  split at h
  · split at h
    · exact tcLoop_keeps _ k axis to2 utc res h
    · subst h
      refine ⟨?_, ?_⟩
      · intro b k4 hh
        simp only [Except.ok.injEq, Prod.mk.injEq] at hh
        rw [← hh.2]
      · intro ke e hh
        cases hh
  · subst h
    refine ⟨?_, ?_⟩
    · intro b k4 hh
      simp only [Except.ok.injEq, Prod.mk.injEq] at hh
      rw [← hh.2]
    · intro ke e hh
      cases hh

theorem apply_opt_tc_ok (k : Kernel) (o : Opt) (ap : Bool) (k1 : Kernel)
    (hop : o.op = OptOps.TC) (h : k.apply_opt o ap = .ok k1) :
    k.applied_opts = [] ∧ k1.applied_opts = [o] := by
  obtain ⟨oop, oax, oarg⟩ := o
  have hop2 : oop = OptOps.TC := hop
  subst hop2
  rw [Kernel.apply_opt] at h
  split at h
  · split at h
    · cases h
    · split at h
      · cases h
      · rename_i hne
        have hnil : k.applied_opts = [] := by
          cases hl : k.applied_opts with
          | nil => rfl
          | cons a l =>
            rw [hl] at hne
            simp at hne
        split at h
        · cases h
        · split at h
          · cases h
          · split at h
            case _ ts to2 harg =>
              split at h
              · cases h
              · split at h
                · cases h
                · split at h
                  · cases h
                  · rename_i bf k1f heq
                    split at h
                    · simp only [Except.ok.injEq] at h
                      subst h
                      refine ⟨hnil, ?_⟩
                      show k1f.applied_opts ++ [⟨OptOps.TC, oax, oarg⟩] = _
                      rw [(applyTcOpt_keeps k _ _ ts to2 _ heq).1 bf k1f rfl, hnil]
                      rfl
                    · cases h
            all_goals cases h
  · rename_i hc
    simp at hc

theorem applyOpts_tc_first_inv : ∀ (ops : List Opt) (k k2 : Kernel),
    ((k.tensor_core = none ∧ k.applied_opts = []) ∨
      (k.applied_opts ≠ [] ∧ (k.tensor_core.isSome = true →
        ∃ o rest, k.applied_opts = o :: rest ∧ o.op = OptOps.TC))) →
    k.applyOpts ops = .ok k2 →
    ((k2.tensor_core = none ∧ k2.applied_opts = []) ∨
      (k2.applied_opts ≠ [] ∧ (k2.tensor_core.isSome = true →
        ∃ o rest, k2.applied_opts = o :: rest ∧ o.op = OptOps.TC)))
  | [], k, k2, hI, h => by
    cases h
    exact hI
  | o :: rest, k, k2, hI, h => by
    rw [Kernel.applyOpts] at h
    split at h
    · rename_i k1 hstep
      refine applyOpts_tc_first_inv rest k1 k2 ?_ h
      by_cases htc : o.op = OptOps.TC
      · obtain ⟨hnil, hone⟩ := apply_opt_tc_ok k o true k1 htc hstep
        refine Or.inr ⟨?_, ?_⟩
        · rw [hone]
          simp
        · intro hs
          exact ⟨o, [], hone, htc⟩
      · rw [apply_opt_nonTC k o true (by simp [htc])] at hstep
        obtain ⟨f1, f2, f3, f4, f5, f6, f7, f8, f9, f10⟩ :=
          applyOptCore_ok_fields k o true k1 hstep
        simp only [if_true] at f10
        rcases hI with ⟨htc0, hap0⟩ | ⟨hne0, hhd0⟩
        · refine Or.inr ⟨?_, ?_⟩
          · rw [f10, hap0]
            simp
          · intro hs
            rw [f6, htc0] at hs
            simp at hs
        · refine Or.inr ⟨?_, ?_⟩
          · rw [f10]
            simp
          · intro hs
            rw [f6] at hs
            obtain ⟨o0, r0, hr0, ho0⟩ := hhd0 hs
            refine ⟨o0, r0 ++ [o], ?_, ho0⟩
            rw [f10, hr0]
            rfl
    · cases h

/-- Claim C4: a TC opt is rejected with `KernelOptError` whenever
`applied_opts` is nonempty, no other opt kind changes `tensor_core`, and in
every state reached from a fresh kernel (no tensor core, no applied opts)
by successful `apply_opt` calls, a set `tensor_core` implies the first
recorded opt is the TC opt. -/
theorem applyOpt_tensor_core_first (k : Kernel) :
    (∀ o b, o.op = OptOps.TC → k.applied_opts ≠ [] →
      k.apply_opt o b = .error (k, .kernelOptError "tensor core opts must be first")) ∧
    (∀ o b k1, o.op ≠ OptOps.TC → k.apply_opt o b = .ok k1 →
      k1.tensor_core = k.tensor_core) ∧
    (∀ ops k2, k.tensor_core = none → k.applied_opts = [] → k.applyOpts ops = .ok k2 →
      k2.tensor_core.isSome = true →
      ∃ o rest, k2.applied_opts = o :: rest ∧ o.op = OptOps.TC) := by
  refine ⟨fun o b hop hne => apply_opt_tc_nonempty k o b hop hne, ?_, ?_⟩
  · intro o b k1 hop h
    rw [apply_opt_nonTC k o b (by simp [hop])] at h
    exact (applyOptCore_ok_fields k o b k1 h).2.2.2.2.2.1
  · intro ops k2 htc hap h hs
    rcases applyOpts_tc_first_inv ops k k2 (Or.inl ⟨htc, hap⟩) h with ⟨htc2, _⟩ | ⟨_, hhd⟩
    · rw [htc2] at hs
      simp at hs
    · exact hhd hs

/-- Witness for C4 at a concrete input: on the example kernel with one opt
already applied, a TC opt is rejected with the "must be first" error. -/
theorem applyOpt_tensor_core_first_witness :
    ({ exKA with applied_opts := [⟨OptOps.UPCAST, some 0, .int 2⟩] } : Kernel).apply_opt
        ⟨OptOps.TC, some 0, .pair (-1) 0⟩ true =
      .error ({ exKA with applied_opts := [⟨OptOps.UPCAST, some 0, .int 2⟩] },
        .kernelOptError "tensor core opts must be first") :=
  (applyOpt_tensor_core_first
      ({ exKA with applied_opts := [⟨OptOps.UPCAST, some 0, .int 2⟩] } : Kernel)).1
    ⟨OptOps.TC, some 0, .pair (-1) 0⟩ true rfl (by simp)

/-! ## Permutation algebra (infrastructure for the SWAP claim) -/

theorem getD_map_in {α β : Type} (g : α → β) (l : List α) (i : Nat) (d : β) (d2 : α)
    (hi : i < l.length) : (l.map g).getD i d = g (l.getD i d2) := by
  rw [List.getD_eq_getElem?_getD, List.getElem?_map, List.getD_eq_getElem?_getD]
  rw [List.getElem?_eq_getElem hi]
  rfl

theorem getD_mem_of_lt {α : Type} (l : List α) (i : Nat) (d : α) (h : i < l.length) :
    l.getD i d ∈ l := by
  rw [List.getD_eq_getElem?_getD, List.getElem?_eq_getElem h]
  exact List.getElem_mem h

theorem getD_range_map {α : Type} (N : Nat) (g : Nat → α) (d : α) (i : Nat) (hi : i < N) :
    ((List.range N).map g).getD i d = g i := by
  rw [List.getD_eq_getElem?_getD, List.getElem?_map, List.getElem?_range hi]
  rfl

theorem double_perm {α : Type} (N : Nat) (f : Nat → Nat) (hf2 : ∀ i, f (f i) = i)
    (hfb : ∀ i, i < N → f i < N) (xs : List α) (d : α) (hx : xs.length = N) :
    ((List.range N).map f).map (fun a =>
      (((List.range N).map f).map (fun b => xs.getD b d)).getD a d) = xs := by
  apply List.ext_getElem (by simp [hx])
  intro i h1 h2
  rw [List.getElem_map, List.getElem_map, List.getElem_range, List.map_map]
  have hiN : i < N := by omega
  rw [getD_range_map N _ d (f i) (hfb i hiN)]
  show xs.getD (f (f i)) d = xs[i]
  rw [hf2 i, List.getD_eq_getElem?_getD, List.getElem?_eq_getElem h2]
  rfl

theorem swapFun_invol (a b i : Nat) :
    (fun j => if j = a then b else if j = b then a else j)
      ((fun j => if j = a then b else if j = b then a else j) i) = i := by
  simp only []
  split_ifs <;> omega

theorem permute_permute_self (st : ShapeTracker) (N : Nat) (f : Nat → Nat)
    (hf2 : ∀ i, f (f i) = i) (hfb : ∀ i, i < N → f i < N)
    (hs : st.shape.length = N) (hstr : st.strides.length = N) :
    (st.permute ((List.range N).map f)).permute ((List.range N).map f) = st := by
  obtain ⟨sh, str⟩ := st
  simp only [ShapeTracker.permute, ShapeTracker.mk.injEq]
  exact ⟨double_perm N f hf2 hfb sh _ hs, double_perm N f hf2 hfb str _ hstr⟩

theorem permuted_full_no_ones (k : Kernel) (p : List Nat)
    (hp : ∀ a ∈ p, a < k.shape_len)
    (hlen : ∀ st ∈ k.sts, st.shape.length = k.shape_len)
    (hno : ∀ s ∈ k.full_shape, s.eqInt 1 = false) :
    ∀ s ∈ (({ k with sts := k.sts.map (fun st => st.permute p) } : Kernel)).full_shape,
      s.eqInt 1 = false := by
  intro s hs
  have hfb2 : (({ k with sts := k.sts.map (fun st => st.permute p) } : Kernel)).full_shape
      = ((k.sts.map (fun st => st.permute p)).getD k.full_buf_index stNil).shape := rfl
  rw [hfb2] at hs
  by_cases hin : k.full_buf_index < k.sts.length
  · rw [getD_map_in _ _ _ _ stNil hin] at hs
    simp only [ShapeTracker.permute, List.mem_map] at hs
    obtain ⟨a, hap, rfl⟩ := hs
    have hst0 : (k.sts.getD k.full_buf_index stNil) ∈ k.sts := getD_mem_of_lt _ _ _ hin
    have haN : a < (k.sts.getD k.full_buf_index stNil).shape.length := by
      rw [hlen _ hst0]
      exact hp a hap
    exact hno _ (getD_mem_of_lt _ _ _ haN)
  · rw [List.getD_eq_default _ _ (by
      rw [List.length_map]
      omega)] at hs
    simp [stNil] at hs

theorem applyTail_ones_id (kb : Kernel) (o : Opt) (axis : Int)
    (h : kb.simplify_ones = (kb, false)) :
    kb.applyTail o true axis = { kb with applied_opts := kb.applied_opts ++ [o] } := by
  rw [applyTail_true]
  have hfalse : kb.applyTail o false axis = kb := by
    unfold Kernel.applyTail
    simp [h]
  rw [hfalse]

theorem swap_step (k : Kernel) (ax n : Int) (k1 : Kernel)
    (hlen : ∀ st ∈ k.sts, st.shape.length = k.shape_len ∧ st.strides.length = k.shape_len)
    (hno : ∀ s ∈ k.full_shape, s.eqInt 1 = false)
    (hbig : k.global_dims ≤ (k.shape_len : Int) ∨ n < (k.shape_len : Int))
    (h : k.apply_opt ⟨OptOps.SWAP, some ax, .int n⟩ true = .ok k1) :
    ax < n ∧ n < k.global_dims ∧
    k1 = { k with
      sts := k.sts.map (fun st => st.permute ((List.range k.shape_len).map
        (fun i => if i = ax.toNat then n.toNat else if i = n.toNat then ax.toNat else i))),
      applied_opts := k.applied_opts ++ [⟨OptOps.SWAP, some ax, .int n⟩] } := by
  rw [apply_opt_nonTC k ⟨OptOps.SWAP, some ax, .int n⟩ true rfl] at h
  unfold Kernel.applyOptCore at h
  split at h
  · rename_i hg
    simp at hg
  · split at h
    · cases h
    · split at h
      · rename_i e0 hKA
        simp [Kernel.kernelAmt] at hKA
      · rename_i amt hKA
        have hamt : amt = SInt.i n := by
          simp [Kernel.kernelAmt] at hKA
          exact hKA.symm
        subst hamt
        split at h
        · cases h
        · split at h
          · cases h
          · rename_i kb hbr
            simp only [Except.ok.injEq] at h
            subst h
            simp only [Kernel.applyBranch] at hbr
            split at hbr
            · cases hbr
            · rename_i hcond
              simp only [Except.ok.injEq] at hbr
              subst hbr
              simp at hcond
              have hax : ax < n := hcond.1
              have hgd : n < k.global_dims := hcond.2
              refine ⟨hax, hgd, ?_⟩
              have hnN : n < (k.shape_len : Int) := by
                rcases hbig with hb | hb
                · omega
                · exact hb
              show (({ k with sts := k.sts.map (fun st => st.permute
                  ((List.range k.shape_len).map (fun i => if i = ax.toNat then n.toNat
                    else if i = n.toNat then ax.toNat else i))) } : Kernel)).applyTail
                  ⟨OptOps.SWAP, some ax, .int n⟩ true
                  (k.real_axis ⟨OptOps.SWAP, some ax, .int n⟩) = _
              have hp : ∀ a ∈ (List.range k.shape_len).map (fun i => if i = ax.toNat then n.toNat
                  else if i = n.toNat then ax.toNat else i), a < k.shape_len := by
                intro a ha
                simp only [List.mem_map, List.mem_range] at ha
                obtain ⟨i, hi, rfl⟩ := ha
                split_ifs <;> omega
              have hno1 := permuted_full_no_ones k _ hp (fun st hst => (hlen st hst).1) hno
              rw [applyTail_ones_id _ _ _ (simplify_ones_noOnes _ hno1)]

/-- Counterexample to the claim that a double SWAP restores the kernel
exactly: on the example two-axis kernel both SWAP(0,1) applications succeed
and restore the shape-trackers, but the final state differs from the
original because `applied_opts` records both SWAPs. -/
theorem swap_roundtrip_counterexample :
    ∃ k1 k2, exKS.apply_opt ⟨OptOps.SWAP, some 0, .int 1⟩ true = .ok k1 ∧
      k1.apply_opt ⟨OptOps.SWAP, some 0, .int 1⟩ true = .ok k2 ∧
      k2.sts = exKS.sts ∧ k2 ≠ exKS := by
  refine ⟨_, _, rfl, rfl, by decide, by decide⟩

/-- Claim C6 (amended): for a well-formed kernel (all trackers of length
`shape_len`, no size-1 axes, `global_dims` within the shape) a successful
SWAP(axis, amt) followed by the same successful SWAP yields exactly the
original state except that `applied_opts` grew by the two SWAP records;
in particular the shape-trackers and every counter are restored. -/
theorem swap_roundtrip_amended (k : Kernel) (ax n : Int) (k1 k2 : Kernel)
    (hlen : ∀ st ∈ k.sts, st.shape.length = k.shape_len ∧ st.strides.length = k.shape_len)
    (hno : ∀ s ∈ k.full_shape, s.eqInt 1 = false)
    (hglob : k.global_dims ≤ (k.shape_len : Int))
    (h1 : k.apply_opt ⟨OptOps.SWAP, some ax, .int n⟩ true = .ok k1)
    (h2 : k1.apply_opt ⟨OptOps.SWAP, some ax, .int n⟩ true = .ok k2) :
    k2 = { k with applied_opts := k.applied_opts ++
      [⟨OptOps.SWAP, some ax, .int n⟩, ⟨OptOps.SWAP, some ax, .int n⟩] } := by
  obtain ⟨hax, hgd, hk1⟩ := swap_step k ax n k1 hlen hno (Or.inl hglob) h1
  have hnN : n < (k.shape_len : Int) := lt_of_lt_of_le hgd hglob
  have hsl : k1.shape_len = k.shape_len := by
    rw [hk1]
    show ((k.sts.map _).getD 0 stNil).shape.length = k.shape_len
    cases hs : k.sts with
    | nil =>
      unfold Kernel.shape_len
      rw [hs]
      rfl
    | cons st0 rest =>
      show ((st0.permute _)).shape.length = k.shape_len
      simp [ShapeTracker.permute]
  have hlen1 : ∀ st ∈ k1.sts, st.shape.length = k1.shape_len ∧
      st.strides.length = k1.shape_len := by
    intro st hst
    rw [hsl]
    rw [hk1] at hst
    simp only [List.mem_map] at hst
    obtain ⟨st0, hst0, rfl⟩ := hst
    constructor
    · simp [ShapeTracker.permute]
    · simp [ShapeTracker.permute]
  have hno1 : ∀ s ∈ k1.full_shape, s.eqInt 1 = false := by
    rw [hk1]
    refine permuted_full_no_ones k _ ?_ (fun st hst => (hlen st hst).1) hno
    intro a ha
    simp only [List.mem_map, List.mem_range] at ha
    obtain ⟨i, hi, rfl⟩ := ha
    split_ifs <;> omega
  obtain ⟨hax2, hgd2, hk2⟩ := swap_step k1 ax n k2 hlen1 hno1
    (Or.inr (by rw [hsl]; exact hnN)) h2
  rw [hsl] at hk2
  rw [hk1] at hk2
  rw [hk2]
  show ({ k with
    sts := (k.sts.map _).map _,
    applied_opts := (k.applied_opts ++ [⟨OptOps.SWAP, some ax, .int n⟩]) ++
      [⟨OptOps.SWAP, some ax, .int n⟩] } : Kernel) = _
  rw [List.map_map]
  have hid : k.sts.map ((fun st => st.permute ((List.range k.shape_len).map
        (fun i => if i = ax.toNat then n.toNat else if i = n.toNat then ax.toNat else i))) ∘
      (fun st => st.permute ((List.range k.shape_len).map
        (fun i => if i = ax.toNat then n.toNat else if i = n.toNat then ax.toNat else i)))) =
      k.sts := by
    have hcongr : ∀ st ∈ k.sts,
        ((fun st => st.permute ((List.range k.shape_len).map
          (fun i => if i = ax.toNat then n.toNat else if i = n.toNat then ax.toNat else i))) ∘
        (fun st => st.permute ((List.range k.shape_len).map
          (fun i => if i = ax.toNat then n.toNat else if i = n.toNat then ax.toNat else i)))) st
          = id st := by
      intro st hst
      show (st.permute _).permute _ = st
      exact permute_permute_self st k.shape_len
        (fun i => if i = ax.toNat then n.toNat else if i = n.toNat then ax.toNat else i)
        (swapFun_invol ax.toNat n.toNat)
        (fun i hi => by
          show (if i = ax.toNat then n.toNat else if i = n.toNat then ax.toNat else i) <
            k.shape_len
          split_ifs <;> omega)
        (hlen st hst).1 (hlen st hst).2
    rw [List.map_congr_left hcongr, List.map_id]
  rw [hid, List.append_assoc]
  rfl

/-- Witness for the amended C6 at a concrete input: the double SWAP(0,1) on
the example two-axis kernel lands exactly on the original state plus the
two SWAP records. -/
theorem swap_roundtrip_witness :
    ∃ k1 k2, exKS.apply_opt ⟨OptOps.SWAP, some 0, .int 1⟩ true = .ok k1 ∧
      k1.apply_opt ⟨OptOps.SWAP, some 0, .int 1⟩ true = .ok k2 ∧
      k2 = { exKS with applied_opts := exKS.applied_opts ++
        [⟨OptOps.SWAP, some 0, .int 1⟩, ⟨OptOps.SWAP, some 0, .int 1⟩] } := by
  refine ⟨_, _, rfl, rfl, ?_⟩
  exact swap_roundtrip_amended exKS 0 1 _ _ (by decide) (by decide) (by decide) rfl rfl

/-- Counterexample to the claimed `SharedMemoryExceeded` subtype: the
shared-memory failure of GROUP on the small-budget example kernel raises
the one and only optimizer error class (`KernelOptError`), carrying the
needed and maximum byte counts only inside its message string. -/
theorem smem_error_counterexample :
    exKRsmall.apply_opt ⟨OptOps.GROUP, some 0, .int 8⟩ true =
      .error (exKRsmall,
        .kernelOptError "exceeds maximum shared memory size: needs 32, max 16") := by
  rfl

/-- Claim C3 (amended): with a reduce op present and the earlier stages
passing, GROUP and GROUPTOP run the shared-memory budget gate: when
`amt * acc_item_size * upcast_product * local_product` exceeds
`shared_max` the opt fails with a plain `KernelOptError` whose message
holds the needed and maximum counts (the code has no `SharedMemoryExceeded`
subtype), and when the budget fits the gate passes and execution proceeds
to the branch. -/
theorem smem_gate_amended (k : Kernel) (op : OptOps) (oax : Option Int) (oarg : OptArg)
    (r : UOp) (amt : SInt) (b : Bool)
    (hop : op = OptOps.GROUP ∨ op = OptOps.GROUPTOP)
    (hr : k.reduceops.head? = some r)
    (hgate : k.dont_use_locals = false)
    (haxis : k.real_axis ⟨op, oax, oarg⟩ < (k.full_shape.length : Int))
    (hamt : k.kernelAmt ⟨op, oax, oarg⟩ (k.real_axis ⟨op, oax, oarg⟩) = .ok amt) :
    ((k.smemSize r amt).leInt k.opts.shared_max = false →
      k.apply_opt ⟨op, oax, oarg⟩ b = .error (k, .kernelOptError
        ("exceeds maximum shared memory size: needs " ++ (k.smemSize r amt).str ++
          ", max " ++ toString k.opts.shared_max))) ∧
    ((k.smemSize r amt).leInt k.opts.shared_max = true →
      k.apply_opt ⟨op, oax, oarg⟩ b =
        match k.applyBranch ⟨op, oax, oarg⟩ (k.real_axis ⟨op, oax, oarg⟩) amt with
        | .error e => .error e
        | .ok k1 => .ok (k1.applyTail ⟨op, oax, oarg⟩ b (k.real_axis ⟨op, oax, oarg⟩))) := by
  have hTC : ((⟨op, oax, oarg⟩ : Opt).op == OptOps.TC) = false := by
    rcases hop with rfl | rfl <;> rfl
  have hcondG : ((⟨op, oax, oarg⟩ : Opt).op == OptOps.GROUP ||
      (⟨op, oax, oarg⟩ : Opt).op == OptOps.GROUPTOP) = true := by
    rcases hop with rfl | rfl <;> rfl
  have hsg : k.smemGate ⟨op, oax, oarg⟩ amt =
      checkK k ((k.smemSize r amt).leInt k.opts.shared_max)
        ("exceeds maximum shared memory size: needs " ++ (k.smemSize r amt).str ++
          ", max " ++ toString k.opts.shared_max) := by
    unfold Kernel.smemGate
    simp only [hr, hcondG, Bool.true_or, if_true]
  have hgatec : (k.dont_use_locals && ((⟨op, oax, oarg⟩ : Opt).op == OptOps.LOCAL ||
      (⟨op, oax, oarg⟩ : Opt).op == OptOps.GROUP ||
      (⟨op, oax, oarg⟩ : Opt).op == OptOps.GROUPTOP)) = false := by
    rw [hgate]
    rfl
  have hcore : k.applyOptCore ⟨op, oax, oarg⟩ b =
      match k.smemGate ⟨op, oax, oarg⟩ amt with
      | .error e => .error e
      | .ok _ =>
        match k.applyBranch ⟨op, oax, oarg⟩ (k.real_axis ⟨op, oax, oarg⟩) amt with
        | .error e => .error e
        | .ok k1 => .ok (k1.applyTail ⟨op, oax, oarg⟩ b (k.real_axis ⟨op, oax, oarg⟩)) := by
    unfold Kernel.applyOptCore
    simp only [hgatec, Bool.false_eq_true, if_false]
    rw [if_neg (by simp [haxis]), hamt]
    rfl
  have happ : k.apply_opt ⟨op, oax, oarg⟩ b = k.applyOptCore ⟨op, oax, oarg⟩ b :=
    apply_opt_nonTC k _ b hTC
  constructor
  · intro hgt
    rw [happ, hcore, hsg]
    unfold checkK
    simp only [hgt, Bool.false_eq_true, if_false]
  · intro hle
    rw [happ, hcore, hsg]
    unfold checkK
    simp only [hle, if_true]

/-- Witness for the amended C3 at a concrete input: GROUP by 8 on the
16-byte-budget example kernel needs 32 bytes and fails with the
KernelOptError carrying both counts. -/
theorem smem_gate_witness :
    (exKRsmall.smemSize exReduce (.i 8)).leInt exKRsmall.opts.shared_max = false ∧
    exKRsmall.apply_opt ⟨OptOps.GROUP, some 0, .int 8⟩ true =
      .error (exKRsmall, .kernelOptError
        ("exceeds maximum shared memory size: needs " ++
          (exKRsmall.smemSize exReduce (.i 8)).str ++
          ", max " ++ toString exKRsmall.opts.shared_max)) :=
  ⟨by decide, (smem_gate_amended exKRsmall OptOps.GROUP (some 0) (.int 8) exReduce (.i 8) true
      (Or.inl rfl) rfl rfl (by decide) rfl).1 (by decide)⟩

/-- Counterexample to the claimed UPCAST acceptance conditions: on the
example no-reduce kernel, UPCAST(0, 1) satisfies every condition the claim
lists (axis below `first_reduce`, no tensor core, amount at most 16,
divisibility), yet `apply_opt` rejects it: an amount of 1 is always
refused as meaningless. -/
theorem upcast_accept_counterexample :
    (0 : Int) < (exKA.first_reduce : Int) ∧ exKA.tensor_core = none ∧
    (pyGet exKA.full_shape 0 (.i 1)).modz 1 = true ∧
    exKA.apply_opt ⟨OptOps.UPCAST, some 0, .int 1⟩ true =
      .error (exKA, .kernelOptError "shift/padto of amt=1, 1 or symbolic amount is meaningless") := by
  refine ⟨by decide, rfl, by decide, rfl⟩

/-- Claim C2 (amended): `apply_opt` accepts UPCAST(axis, n) exactly when
the axis is in range, the resolved amount is a concrete int other than 1,
`full_shape[axis] % amt == 0` (there is no `full_shape[axis] == 1` escape),
the shared-memory gate passes (it applies to UPCAST once grouping
happened), `axis < first_reduce`, the axis is not a tensor-core local
axis, the amount is at most 16 unless the device is "DSP", and the final
`upcast` guard (the shifted last dimension is not 1) holds; any failure
raises `KernelOptError`. -/
theorem upcast_amended (k : Kernel) (ax n : Int) (b : Bool) :
    (∃ k1, k.apply_opt ⟨OptOps.UPCAST, some ax, .int n⟩ b = .ok k1) ↔
      (ax < (k.full_shape.length : Int) ∧
       ((k.amtOf n ax).isInt && !((k.amtOf n ax).eqInt 1)) = true ∧
       (pyGet k.full_shape ax (.i 1)).modz (k.amtOf n ax).toInt = true ∧
       k.smemGate ⟨OptOps.UPCAST, some ax, .int n⟩ (k.amtOf n ax) = .ok () ∧
       ax < (k.first_reduce : Int) ∧
       (match k.tensor_core with
        | some tc => decide (k.global_dims ≤ ax) &&
            decide (ax < k.global_dims + (tc.get_local_axes.length : Int))
        | none => false) = false ∧
       (k.opts.device == "DSP" || (k.amtOf n ax).leInt 16) = true ∧
       (pyGet (k.shift_to ax.toNat (k.amtOf n ax).toInt false none).full_shape (-1)
         (.i 1)).eqInt 1 = false) := by
  have hra : k.real_axis ⟨OptOps.UPCAST, some ax, .int n⟩ = ax := rfl
  rw [apply_opt_nonTC k ⟨OptOps.UPCAST, some ax, .int n⟩ b rfl]
  constructor
  · rintro ⟨k1, h⟩
    unfold Kernel.applyOptCore at h
    rw [hra] at h
    split at h
    · cases h
    · rename_i hgatec
      split at h
      · cases h
      · rename_i haxis
        split at h
        · cases h
        · rename_i amt hKA
          have haxP : ax < (k.full_shape.length : Int) := by simpa using haxis
          unfold Kernel.kernelAmt at hKA
          simp only [show ((⟨OptOps.UPCAST, some ax, .int n⟩ : Opt).op == OptOps.SWAP) = false
              from rfl, Bool.false_eq_true, if_false,
            show ((⟨OptOps.UPCAST, some ax, .int n⟩ : Opt).op != OptOps.PADTO) = true from rfl,
            Bool.true_and] at hKA
          split at hKA
          · cases hKA
          · rename_i hc1
            split at hKA
            · cases hKA
            · rename_i hc2
              simp only [Except.ok.injEq] at hKA
              subst hKA
              split at h
              · cases h
              · rename_i hsm
                split at h
                · cases h
                · rename_i kb hbr
                  simp only [Kernel.applyBranch] at hbr
                  split at hbr
                  · cases hbr
                  · rename_i hfr
                    split at hbr
                    · cases hbr
                    · rename_i htcl
                      split at hbr
                      · cases hbr
                      · rename_i hdsp
                        unfold Kernel.upcast at hbr
                        split at hbr
                        · cases hbr
                        · rename_i hup
                          refine ⟨haxP, by simpa using hc1, by simpa using hc2, hsm,
                            by simpa using hfr, by simpa using htcl, ?_, by simpa using hup⟩
                          simp only [Bool.not_eq_true] at hdsp
                          cases hx : (k.opts.device == "DSP" || (k.amtOf n ax).leInt 16) with
                          | true => rfl
                          | false =>
                            rw [hx] at hdsp
                            simp at hdsp
  · rintro ⟨haxP, hamt1, hdiv, hsm, hfr, htcl, hdsp, hup⟩
    have hKA : k.kernelAmt ⟨OptOps.UPCAST, some ax, .int n⟩ ax = .ok (k.amtOf n ax) := by
      unfold Kernel.kernelAmt
      simp only [show ((⟨OptOps.UPCAST, some ax, .int n⟩ : Opt).op == OptOps.SWAP) = false
          from rfl, Bool.false_eq_true, if_false,
        show ((⟨OptOps.UPCAST, some ax, .int n⟩ : Opt).op != OptOps.PADTO) = true from rfl,
        Bool.true_and]
      rw [if_neg (by simp [hamt1]), if_neg (by simp [hdiv])]
    have hup2 : (k.shift_to ax.toNat (k.amtOf n ax).toInt false none).upcast =
        .ok { k.shift_to ax.toNat (k.amtOf n ax).toInt false none with
          upcasted := (k.shift_to ax.toNat (k.amtOf n ax).toInt false none).upcasted + 1 } := by
      unfold Kernel.upcast
      rw [if_neg (by simp [hup])]
    have hBR : k.applyBranch ⟨OptOps.UPCAST, some ax, .int n⟩ ax (k.amtOf n ax) =
        .ok { k.shift_to ax.toNat (k.amtOf n ax).toInt false none with
          upcasted := (k.shift_to ax.toNat (k.amtOf n ax).toInt false none).upcasted + 1 } := by
      simp only [Kernel.applyBranch]
      rw [if_neg (by simp [hfr]), if_neg (by simp [htcl]), if_neg (by simp [hdsp])]
      exact hup2
    have hfin : k.applyOptCore ⟨OptOps.UPCAST, some ax, .int n⟩ b =
        .ok (({ k.shift_to ax.toNat (k.amtOf n ax).toInt false none with
          upcasted := (k.shift_to ax.toNat (k.amtOf n ax).toInt false none).upcasted + 1 }
            : Kernel).applyTail ⟨OptOps.UPCAST, some ax, .int n⟩ b ax) := by
      unfold Kernel.applyOptCore
      rw [hra, if_neg (by simp), if_neg (by simp [haxP]), hKA]
      show (match k.smemGate ⟨OptOps.UPCAST, some ax, .int n⟩ (k.amtOf n ax) with
        | Except.error e => Except.error e
        | Except.ok _ =>
          match k.applyBranch ⟨OptOps.UPCAST, some ax, .int n⟩ ax (k.amtOf n ax) with
          | Except.error e => Except.error e
          | Except.ok k1 =>
            Except.ok (k1.applyTail ⟨OptOps.UPCAST, some ax, .int n⟩ b ax)) = _
      rw [hsm]
      show (match k.applyBranch ⟨OptOps.UPCAST, some ax, .int n⟩ ax (k.amtOf n ax) with
        | Except.error e => Except.error e
        | Except.ok k1 =>
          Except.ok (k1.applyTail ⟨OptOps.UPCAST, some ax, .int n⟩ b ax)) = _
      rw [hBR]
    exact ⟨_, hfin⟩

/-- Witness for the amended C2 at a concrete input: UPCAST(0, 4) on the
example reduce kernel satisfies every condition of the amended
characterization and succeeds. -/
theorem upcast_amended_witness :
    ∃ k1, exKR.apply_opt ⟨OptOps.UPCAST, some 0, .int 4⟩ true = .ok k1 :=
  (upcast_amended exKR 0 4 true).2
    ⟨by decide, by decide, by decide, rfl, by decide, by decide, by decide, by decide⟩

/-- Counterexample to failure atomicity: PADTO(0, 16) on the example
kernel with tracker sizes 5 and 3 pads the first tracker to 16, then fails
the quadruple-work check on the second; the error state keeps the padded
first tracker and so differs from the pre-call state. -/
theorem apply_opt_failure_counterexample :
    ∃ ke msg, exKP.apply_opt ⟨OptOps.PADTO, some 0, .int 16⟩ true =
      .error (ke, .kernelOptError msg) ∧ ke ≠ exKP := by
  refine ⟨_, _, rfl, by decide⟩

/-- Claim C1 (amended): a failing `apply_opt` leaves the state exactly
unchanged for LOCAL, GROUP, GROUPTOP, NOLOCALS and SWAP (their checks all
run before any mutation), and a failing PADTO can mutate only the
shape-trackers (the padding loop pads some trackers before raising);
UPCAST and UNROLL may likewise mutate before the final `upcast` guard, and
the TC path is not atomic either, so the claimed all-ops atomicity fails. -/
theorem apply_opt_failure_amended (k : Kernel) (o : Opt) (b : Bool) (ke : Kernel) (e : KErr)
    (hTC : (o.op == OptOps.TC) = false)
    (h : k.apply_opt o b = .error (ke, e)) :
    ((o.op = OptOps.LOCAL ∨ o.op = OptOps.GROUP ∨ o.op = OptOps.GROUPTOP ∨
      o.op = OptOps.NOLOCALS ∨ o.op = OptOps.SWAP) → ke = k) ∧
    (o.op = OptOps.PADTO → ∃ st, ke = { k with sts := st }) := by
  rw [apply_opt_nonTC k o b hTC] at h
  unfold Kernel.applyOptCore at h
  split at h
  · cases h
    exact ⟨fun _ => rfl, fun _ => ⟨k.sts, rfl⟩⟩
  · split at h
    · cases h
      exact ⟨fun _ => rfl, fun _ => ⟨k.sts, rfl⟩⟩
    · split at h
      · rename_i hamt
        cases h
        have hk : ke = k := kernelAmt_err_state k o (k.real_axis o) ke e hamt
        exact ⟨fun _ => hk, fun _ => ⟨k.sts, by rw [hk]⟩⟩
      · split at h
        · rename_i hsm
          cases h
          have hk : ke = k := smemGate_err_state k o _ ke e hsm
          exact ⟨fun _ => hk, fun _ => ⟨k.sts, by rw [hk]⟩⟩
        · split at h
          · rename_i hbr
            cases h
            obtain ⟨oop, oax2, oarg2⟩ := o
            refine ⟨?_, ?_⟩
            · intro hop5
              rcases hop5 with rfl | rfl | rfl | rfl | rfl <;>
                (simp only [Kernel.applyBranch] at hbr
                 repeat' split at hbr
                 all_goals cases hbr <;> rfl)
            · intro hP
              cases hP
              simp only [Kernel.applyBranch] at hbr
              split at hbr
              · cases hbr
                exact ⟨k.sts, rfl⟩
              · split at hbr
                · cases hbr
                  exact ⟨k.sts, rfl⟩
                · split at hbr
                  · rename_i hchk
                    cases hbr
                    unfold Kernel.padtoCheck at hchk
                    split at hchk
                    · split at hchk
                      · unfold checkK at hchk
                        split at hchk
                        · cases hchk
                        · cases hchk
                          exact ⟨k.sts, rfl⟩
                      · cases hchk
                    · cases hchk
                  · split at hbr
                    · rename_i hfold
                      cases hbr
                      exact padtoFold_err_decomp _ _ _ k false ke e hfold
                    · rename_i k1p padded hfold
                      split at hbr
                      · cases hbr
                      · cases hbr
                        exact padtoFold_decomp _ _ _ k false (ke, padded) hfold
          · cases h

/-- Witness for the amended C1 at a concrete input: LOCAL on an
out-of-range axis fails and the error state equals the input state. -/
theorem apply_opt_failure_witness :
    ∃ ke e, exKA.apply_opt ⟨OptOps.LOCAL, some 5, .int 4⟩ true = .error (ke, e) ∧
      ke = exKA := by
  refine ⟨_, _, rfl, ?_⟩
  exact (apply_opt_failure_amended exKA ⟨OptOps.LOCAL, some 5, .int 4⟩ true _ _ rfl rfl).1
    (Or.inl rfl)

/-! ## The reduce boundary of simplify_merge_adjacent (C8) -/

theorem range_one_split (fr N : Nat) (h1 : 1 ≤ fr) (h2 : fr < N) :
    List.range' 1 (N - 1) = List.range' 1 (fr - 1) ++ fr :: List.range' (fr + 1) (N - 1 - fr) := by
  have h3 : N - 1 = (N - 1 - fr + 1) + (fr - 1) := by omega
  have h4 : 1 + (fr - 1) = fr := by omega
  conv_lhs => rw [h3, ← List.range'_append_1]
  rw [h4, List.range'_succ]

theorem smaStep_boundary (fr : Nat) (rows : List (List SInt × List (Option SInt)))
    (rets : List (List (SInt × Option SInt))) :
    smaStep fr rows rets fr = (rows.zip rets).map (fun rr =>
      rr.2 ++ [(rr.1.1.getD fr (.i 1), rr.1.2.getD fr none)]) := by
  unfold smaStep
  simp

/-- Claim C8: `simplify_merge_adjacent` never merges across the reduce
boundary.  At iteration `first_reduce` the merge step appends a fresh
entry to every row result regardless of the per-tracker stride conditions;
the whole merge fold factors through that plain append; and
`simplify_merge_adjacent` reshapes every tracker by exactly these row
results. -/
theorem merge_adjacent_reduce_boundary (k : Kernel) (h0 : ¬ k.shape_len = 0)
    (hfr1 : 1 ≤ k.first_reduce)
    (hfrn : k.first_reduce < (k.smaRows.getD 0 ([], [])).1.length) :
    (∀ rets, smaStep k.first_reduce k.smaRows rets k.first_reduce =
      (k.smaRows.zip rets).map (fun rr =>
        rr.2 ++ [(rr.1.1.getD k.first_reduce (.i 1), rr.1.2.getD k.first_reduce none)])) ∧
    smaRets k.first_reduce k.smaRows =
      (List.range' (k.first_reduce + 1)
          ((k.smaRows.getD 0 ([], [])).1.length - 1 - k.first_reduce)).foldl
        (smaStep k.first_reduce k.smaRows)
        ((k.smaRows.zip ((List.range' 1 (k.first_reduce - 1)).foldl
            (smaStep k.first_reduce k.smaRows) (smaInit k.smaRows))).map
          (fun rr =>
            rr.2 ++ [(rr.1.1.getD k.first_reduce (.i 1),
              rr.1.2.getD k.first_reduce none)])) ∧
    k.simplify_merge_adjacent = { k with
      sts := (k.sts.zip (smaRets k.first_reduce k.smaRows)).map
        (fun p => p.1.reshape (p.2.map Prod.fst)) } := by
  refine ⟨fun rets => smaStep_boundary k.first_reduce k.smaRows rets, ?_, ?_⟩
  · unfold smaRets
    show List.foldl (smaStep k.first_reduce k.smaRows) (smaInit k.smaRows)
      (List.range' 1 ((k.smaRows.getD 0 ([], [])).1.length - 1)) = _
    rw [range_one_split k.first_reduce ((k.smaRows.getD 0 ([], [])).1.length) hfr1 hfrn,
      List.foldl_append, List.foldl_cons, smaStep_boundary]
  · unfold Kernel.simplify_merge_adjacent
    rw [if_neg h0]

/-- Witness for C8 at a concrete input: the example reduce kernel has its
reduce boundary at axis 1 and its merge result is exactly the factored
fold. -/
theorem merge_adjacent_boundary_witness :
    exKR.simplify_merge_adjacent = { exKR with
      sts := (exKR.sts.zip (smaRets exKR.first_reduce exKR.smaRows)).map
        (fun p => p.1.reshape (p.2.map Prod.fst)) } :=
  (merge_adjacent_reduce_boundary exKR (by decide) (by decide) (by decide)).2.2

end TG
